import Mathlib

/-!
Verification of the chapter-title resolution core of the
kobo-highlights-extractor repository.

The definitions below are a shallow embedding of the Python modules
`chapter_title.py` and `exporter.py`.  Python string primitives
(`str.strip`, `str.lower`, `urllib.parse.unquote`, `str.splitlines`,
regular-expression matchers) are modelled explicitly; character classes
(`\s`, `\w`, case mapping) are modelled over ASCII, which covers every
string shape the program works with.  All definitions are executable and
use structural recursion only.
-/

set_option maxRecDepth 4000

namespace Kobo

/-! ## Python string primitives -/

/-- ASCII part of Python's whitespace class (used by `str.strip` and `\s`). -/
def isPySpace (c : Char) : Bool :=
  c = ' ' || c = '\t' || c = '\n' || c = '\r' || c = '\x0b' || c = '\x0c'

/-- ASCII model of Python's `\w` word-character class. -/
def isWordChar (c : Char) : Bool := c.isAlphanum || c = '_'

def pyStripList (l : List Char) : List Char :=
  ((l.dropWhile isPySpace).reverse.dropWhile isPySpace).reverse

/-- Model of Python `str.strip()` (ASCII whitespace). -/
def pyStrip (s : String) : String := String.mk (pyStripList s.data)

/-- Model of Python `str.lower()` (ASCII case mapping). -/
def pyLower (s : String) : String := String.mk (s.data.map Char.toLower)

/-- Python truthiness of an optional string: `None` and `""` are falsy. -/
def pyTruthy : Option String → Bool
  | none => false
  | some s => s != ""

/-- Split a character list at the first occurrence of a (non-empty)
separator: `some (before, after)`, or `none` when the separator does not
occur.  Models `str.split(sep, 1)` / `str.find(sep)`. -/
def splitFirst (sep : List Char) : List Char → Option (List Char × List Char)
  | [] => if sep.isPrefixOf ([] : List Char) then some ([], []) else none
  | c :: rest =>
    if sep.isPrefixOf (c :: rest) then
      some ([], (c :: rest).drop sep.length)
    else
      match splitFirst sep rest with
      | some (pre, post) => some (c :: pre, post)
      | none => none

def containsSub (sub : List Char) (l : List Char) : Bool :=
  (splitFirst sub l).isSome

/-- Python `sub in s`. -/
def strContains (s sub : String) : Bool := containsSub sub.data s.data

/-- Python `s.split(sep, 1)` when the separator occurs. -/
def pySplit1 (s sep : String) : Option (String × String) :=
  (splitFirst sep.data s.data).map (fun p => (String.mk p.1, String.mk p.2))

/-! ## `urllib.parse.unquote`

Percent-escapes followed by two hex digits denote bytes; maximal byte runs
(including literal ASCII characters, which CPython also routes through the
byte decoder) are decoded as UTF-8 with `errors='replace'`; an invalid
escape leaves the `%` in place; non-ASCII characters pass through. -/

def isHexDigitChar (c : Char) : Bool :=
  c.isDigit || ('a' ≤ c && c ≤ 'f') || ('A' ≤ c && c ≤ 'F')

def hexVal (c : Char) : Nat :=
  if c.isDigit then c.toNat - '0'.toNat
  else if 'a' ≤ c && c ≤ 'f' then c.toNat - 'a'.toNat + 10
  else if 'A' ≤ c && c ≤ 'F' then c.toNat - 'A'.toNat + 10
  else 0

inductive UQItem where
  | byte : Nat → UQItem
  | raw : Char → UQItem
  deriving DecidableEq

/-- Scanner state while recognizing `%XX` escapes: nothing pending, a
pending `%`, or a pending `%` plus one hex digit. -/
inductive UQState where
  | plain : UQState
  | pct : UQState
  | pctOne : Char → UQState
  deriving DecidableEq

/-- Tokenize one character outside any escape. -/
def uqPlainStep (c : Char) : List UQItem × UQState :=
  if c = '%' then ([], UQState.pct)
  else if c.toNat < 128 then ([UQItem.byte c.toNat], UQState.plain)
  else ([UQItem.raw c], UQState.plain)

/-- One scanner transition. An invalid escape emits the literal `%` (and
any pending hex digit, an ASCII byte) and reprocesses the current
character, exactly as CPython's `unquote_to_bytes` leaves invalid escapes
in place. -/
def uqStep (st : UQState) (c : Char) : List UQItem × UQState :=
  match st with
  | UQState.plain => uqPlainStep c
  | UQState.pct =>
    if isHexDigitChar c then ([], UQState.pctOne c)
    else
      let p := uqPlainStep c
      (UQItem.raw '%' :: p.1, p.2)
  | UQState.pctOne c1 =>
    if isHexDigitChar c then
      ([UQItem.byte (16 * hexVal c1 + hexVal c)], UQState.plain)
    else
      let p := uqPlainStep c
      (UQItem.raw '%' :: UQItem.byte c1.toNat :: p.1, p.2)

def uqFlush : UQState → List UQItem
  | UQState.plain => []
  | UQState.pct => [UQItem.raw '%']
  | UQState.pctOne c1 => [UQItem.raw '%', UQItem.byte c1.toNat]

/-- Tokenize a string for unquoting: `%XX` escapes and literal ASCII
characters become bytes, anything else stays a raw character. -/
def uqScan (l : List Char) : List UQItem :=
  let r := l.foldl
    (fun (acc : List UQItem × UQState) c =>
      let p := uqStep acc.2 c
      (acc.1 ++ p.1, p.2))
    ([], UQState.plain)
  r.1 ++ uqFlush r.2

def isContByte (b : Nat) : Bool := 0x80 ≤ b && b ≤ 0xBF

/-- Valid second byte for a three-byte UTF-8 sequence with lead byte `b`. -/
def utf8Cont2Ok (b b2 : Nat) : Bool :=
  if b = 0xE0 then 0xA0 ≤ b2 && b2 ≤ 0xBF
  else if b = 0xED then 0x80 ≤ b2 && b2 ≤ 0x9F
  else isContByte b2

/-- Valid second byte for a four-byte UTF-8 sequence with lead byte `b`. -/
def utf8Cont2OkF (b b2 : Nat) : Bool :=
  if b = 0xF0 then 0x90 ≤ b2 && b2 ≤ 0xBF
  else if b = 0xF4 then 0x80 ≤ b2 && b2 ≤ 0x8F
  else isContByte b2

/-- Decoder state: no pending sequence, or a part-way consumed multi-byte
sequence.  `u2 hi` expects one continuation; `u3a lead` / `u4a lead` have
seen only the lead byte (the next byte's valid range depends on it);
`u3b part` / `u4c part` expect one final continuation; `u4b part` expects
two. -/
inductive U8State where
  | u0 : U8State
  | u2 : Nat → U8State
  | u3a : Nat → U8State
  | u3b : Nat → U8State
  | u4a : Nat → U8State
  | u4b : Nat → U8State
  | u4c : Nat → U8State
  deriving DecidableEq

/-- Decode one byte from the initial state. -/
def u8Start (b : Nat) : List Char × U8State :=
  if b ≤ 0x7F then ([Char.ofNat b], U8State.u0)
  else if 0xC2 ≤ b && b ≤ 0xDF then ([], U8State.u2 (b - 0xC0))
  else if 0xE0 ≤ b && b ≤ 0xEF then ([], U8State.u3a b)
  else if 0xF0 ≤ b && b ≤ 0xF4 then ([], U8State.u4a b)
  else (['�'], U8State.u0)

/-- One decoder transition.  A byte that cannot continue the pending
sequence closes it as one U+FFFD (the maximal-subpart rule) and is then
reprocessed from the initial state. -/
def u8Step (st : U8State) (b : Nat) : List Char × U8State :=
  match st with
  | U8State.u0 => u8Start b
  | U8State.u2 hi =>
    if isContByte b then ([Char.ofNat (hi * 0x40 + (b - 0x80))], U8State.u0)
    else
      let p := u8Start b
      ('�' :: p.1, p.2)
  | U8State.u3a lead =>
    if utf8Cont2Ok lead b then
      ([], U8State.u3b ((lead - 0xE0) * 0x1000 + (b - 0x80) * 0x40))
    else
      let p := u8Start b
      ('�' :: p.1, p.2)
  | U8State.u3b part =>
    if isContByte b then ([Char.ofNat (part + (b - 0x80))], U8State.u0)
    else
      let p := u8Start b
      ('�' :: p.1, p.2)
  | U8State.u4a lead =>
    if utf8Cont2OkF lead b then
      ([], U8State.u4b ((lead - 0xF0) * 0x40000 + (b - 0x80) * 0x1000))
    else
      let p := u8Start b
      ('�' :: p.1, p.2)
  | U8State.u4b part =>
    if isContByte b then ([], U8State.u4c (part + (b - 0x80) * 0x40))
    else
      let p := u8Start b
      ('�' :: p.1, p.2)
  | U8State.u4c part =>
    if isContByte b then ([Char.ofNat (part + (b - 0x80))], U8State.u0)
    else
      let p := u8Start b
      ('�' :: p.1, p.2)

def u8Flush : U8State → List Char
  | U8State.u0 => []
  | _ => ['�']

/-- UTF-8 decoding with `errors='replace'`: each maximal subpart of an
ill-formed sequence becomes one U+FFFD, as in CPython. -/
def utf8DR (bs : List Nat) : List Char :=
  let r := bs.foldl
    (fun (acc : List Char × U8State) b =>
      let p := u8Step acc.2 b
      (acc.1 ++ p.1, p.2))
    ([], U8State.u0)
  r.1 ++ u8Flush r.2

/-- Assemble unquote tokens: flush each maximal byte run through the UTF-8
decoder, pass raw characters through. -/
def uqGo : List UQItem → List Nat → List Char
  | [], acc => utf8DR acc.reverse
  | UQItem.byte b :: rest, acc => uqGo rest (b :: acc)
  | UQItem.raw c :: rest, acc => utf8DR acc.reverse ++ c :: uqGo rest []

/-- Model of `urllib.parse.unquote` (UTF-8, `errors='replace'`).  It is
total: it never fails, and invalid escapes are left undecoded. -/
def pyUnquote (s : String) : String := String.mk (uqGo (uqScan s.data) [])

/-! ## Identifier decomposers (`chapter_title.py`) -/

/-- `chapter_title._tail_after_bang_bang_no_fragment`: the tail path after
the first `'!!'` (or the first `'!'` if no `'!!'`), fragment stripped,
percent-decoded.  `None` for absent/empty input or when no separator
occurs. -/
def _tail_after_bang_bang_no_fragment (content_id : Option String) : Option String :=
  match content_id with
  | none => none
  | some cid =>
    if cid = "" then none
    else
      let tail0 : Option String :=
        if strContains cid "!!" then (pySplit1 cid "!!").map (fun p => p.2)
        else if strContains cid "!" then (pySplit1 cid "!").map (fun p => p.2)
        else none
      match tail0 with
      | none => none
      | some t =>
        let t1 := (((pySplit1 t "#").map (fun p => p.1)).getD t)
        some (pyUnquote t1)

/-- `chapter_title._p_anchor`: the `pNNN` anchor from the fragment, i.e.
the fragment up to the first `'-'`, provided it starts with `'p'`. -/
def _p_anchor (content_id : Option String) : Option String :=
  match content_id with
  | none => none
  | some cid =>
    if cid = "" || !(strContains cid "#") then none
    else
      match pySplit1 cid "#" with
      | some (_, frag) =>
        let base := (((pySplit1 frag "-").map (fun p => p.1)).getD frag)
        match base.data with
        | 'p' :: _ => some base
        | _ => none
      | none => none

/-! ## Identifier decomposers (`exporter.py`) -/

/-- `exporter._strip_after_bang_bang`: everything before the first `'!!'`;
falsy input is returned unchanged. -/
def _strip_after_bang_bang : Option String → Option String
  | none => none
  | some cid =>
    if cid = "" then some cid
    else some ((((splitFirst ['!', '!'] cid.data).map (fun p => String.mk p.1))).getD cid)

/-- `exporter._fragment_base`: `pre#frag` with any `-N` suffix of the
fragment removed; `None` when there is no `'#'`. -/
def _fragment_base : Option String → Option String
  | none => none
  | some cid =>
    if cid = "" || !(strContains cid "#") then none
    else
      match pySplit1 cid "#" with
      | some (pre, frag) =>
        let fragMain := (((pySplit1 frag "-").map (fun p => p.1)).getD frag)
        some (pre ++ "#" ++ fragMain)
      | none => none

/-- `exporter._pre_bang`: the part before the first `'!!'`; with no `'!!'`
it falls back to the fragment base, and failing that to the whole id. -/
def _pre_bang : Option String → Option String
  | none => none
  | some cid =>
    if cid = "" then none
    else if strContains cid "!!" then (pySplit1 cid "!!").map (fun p => p.1)
    else
      match _fragment_base (some cid) with
      | some fb => if fb != "" then some fb else some cid
      | none => some cid

/-- `exporter._normalize_id`: percent-decoded form of a string. -/
def _normalize_id : Option String → Option String
  | none => none
  | some s => some (pyUnquote s)

/-- `exporter._strip_fragment`: everything before the first `'#'`; falsy
input is returned unchanged. -/
def _strip_fragment : Option String → Option String
  | none => none
  | some cid =>
    if cid = "" then some cid
    else some ((((splitFirst ['#'] cid.data).map (fun p => String.mk p.1))).getD cid)

/-! ## Tail similarity scorer (`chapter_title.py`) -/

def isSepBang (c : Char) : Bool := c = '!' || c = '/'

/-- Auxiliary for `re.split("[!/]+", s)`: the `Bool` flag records whether
the previous character belonged to a separator run. -/
def splitRunsAux : List Char → List Char → Bool → List (List Char)
  | [], acc, _ => [acc.reverse]
  | c :: rest, acc, inSep =>
    if isSepBang c then
      if inSep then splitRunsAux rest [] true
      else acc.reverse :: splitRunsAux rest [] true
    else splitRunsAux rest (c :: acc) false

/-- Model of `re.split(r"[!/]+", s)` (runs of `!` or `/` separate fields;
empty fields appear at the ends exactly as in Python). -/
def splitSepRuns (s : String) : List String := (splitRunsAux s.data [] false).map String.mk

/-- Drop a (lower-case) suffix from `l`, comparing case-insensitively. -/
def dropSuffixCI (l : List Char) (suf : List Char) : Option (List Char) :=
  let n := suf.length
  if decide (n ≤ l.length) && ((l.drop (l.length - n)).map Char.toLower == suf) then
    some (l.take (l.length - n))
  else none

/-- One application of `re.sub(r"\.(x?html?)$", "", base, re.I)` at the
very end of the string (`.xhtml` is checked before `.html` because the
regex match must start at the `'.'`). -/
def stripExtEnd (l : List Char) : List Char :=
  match dropSuffixCI l ".xhtml".data with
  | some r => r
  | none =>
    match dropSuffixCI l ".xhtm".data with
    | some r => r
    | none =>
      match dropSuffixCI l ".html".data with
      | some r => r
      | none =>
        match dropSuffixCI l ".htm".data with
        | some r => r
        | none => l

/-- `re.sub(r"\.(x?html?)$", "", base, re.I)`: Python's `$` also matches
just before one final newline. -/
def stripHtmlExtList (l : List Char) : List Char :=
  match l.getLast? with
  | some c =>
    if c = '\n' then
      let r := stripExtEnd l.dropLast
      if r = l.dropLast then l else r ++ ['\n']
    else stripExtEnd l
  | none => l

/-- `chapter_title._basename_no_ext`. -/
def _basename_no_ext : Option String → String
  | none => ""
  | some tail =>
    if tail = "" then ""
    else
      let parts := splitSepRuns tail
      let base := parts.getLast?.getD tail
      String.mk (stripHtmlExtList base.data)

/-- Auxiliary for `re.findall(r"\d{1,6}", s)`: the state carries the value
and digit count of the number currently being scanned. -/
def extractNumsGo : List Char → Option (Nat × Nat) → List Nat
  | [], none => []
  | [], some (v, _) => [v]
  | c :: rest, none =>
    if c.isDigit then extractNumsGo rest (some (c.toNat - 48, 1))
    else extractNumsGo rest none
  | c :: rest, some (v, k) =>
    if c.isDigit then
      if k < 6 then extractNumsGo rest (some (10 * v + (c.toNat - 48), k + 1))
      else v :: extractNumsGo rest (some (c.toNat - 48, 1))
    else v :: extractNumsGo rest none

/-- `chapter_title._extract_numbers`: `re.findall(r"\d{1,6}", s)` as
integers. -/
def _extract_numbers (s : String) : List Nat := extractNumsGo s.data none

/-- `chapter_title._split_dirs`. -/
def _split_dirs : Option String → List String
  | none => []
  | some tail =>
    if tail = "" then []
    else (splitSepRuns tail).filter (fun seg => seg != "")

/-- Length of the shared leading run of two segment lists (the
`zip`-and-`break` loop of `_score_tail_similarity`). -/
def commonLeadCount : List String → List String → Nat
  | a :: as_, b :: bs => if a = b then commonLeadCount as_ bs + 1 else 0
  | _, _ => 0

/-- `chapter_title._score_tail_similarity`. -/
def _score_tail_similarity (cur_tail cand_tail : Option String) : Int :=
  match cand_tail with
  | none => 0
  | some ct =>
    if ct = "" then 0
    else
      let cur := cur_tail.getD ""
      let s1 : Int := if ct = cur then 100 else 0
      let curBase := _basename_no_ext (some cur)
      let candBase := _basename_no_ext (some ct)
      let s2 : Int := if curBase ≠ "" ∧ candBase ≠ "" ∧ curBase = candBase then 80 else 0
      let curNums := _extract_numbers curBase
      let candNums := _extract_numbers candBase
      let s3 : Int :=
        match curNums, candNums with
        | cn :: _, dn :: _ =>
          let diff : Int := (((cn : Int) - (dn : Int)).natAbs : Int)
          max 0 (50 - min diff 50)
        | _, _ => 0
      let curDirs := _split_dirs (some cur)
      let candDirs := _split_dirs (some ct)
      let s4 : Int :=
        if curDirs ≠ [] ∧ candDirs ≠ [] then
          min ((commonLeadCount curDirs candDirs : Int) * 5) 20
        else 0
      s1 + s2 + s3 + s4

/-! ## Generic-title classifier (`chapter_title.py`) -/

def wordBoundaryAfter : List Char → Bool
  | [] => true
  | c :: _ => !isWordChar c

def countLeadDigits : List Char → Nat
  | [] => 0
  | c :: rest => if c.isDigit then countLeadDigits rest + 1 else 0

/-- Scan every position of the list, trying `p` wherever a `\b` word
boundary precedes the position (our patterns all begin with a word
character, so the boundary holds exactly when the previous character is
not a word character). -/
def searchWithPrev (p : List Char → Bool) : Option Char → List Char → Bool
  | _, [] => false
  | prev, c :: rest =>
    ((match prev with | none => true | some q => !isWordChar q) && p (c :: rest))
      || searchWithPrev p (some c) rest

/-- Anchored matcher for `part\d{1,5}\s*(?:_|\s)?split\s*\d{1,5}\b` (the
leading `\b` is handled by the caller). -/
def genPartSplitAt (l : List Char) : Bool :=
  if "part".data.isPrefixOf l then
    let l1 := l.drop 4
    let d1 := countLeadDigits l1
    if decide (1 ≤ d1 ∧ d1 ≤ 5) then
      let l2 := (l1.drop d1).dropWhile isPySpace
      let l3 := match l2 with
        | '_' :: r => r
        | _ => l2
      if "split".data.isPrefixOf l3 then
        let l4 := (l3.drop 5).dropWhile isPySpace
        let d2 := countLeadDigits l4
        decide (1 ≤ d2 ∧ d2 ≤ 5) && wordBoundaryAfter (l4.drop d2)
      else false
    else false
  else false

/-- Anchored matcher for `split[_ ]?\d{1,5}\b`. -/
def genSplitAt (l : List Char) : Bool :=
  if "split".data.isPrefixOf l then
    let l1 := l.drop 5
    let l2 := match l1 with
      | c :: r => if c = '_' || c = ' ' then r else l1
      | [] => l1
    let d := countLeadDigits l2
    decide (1 ≤ d ∧ d ≤ 5) && wordBoundaryAfter (l2.drop d)
  else false

def labelBoundary (w : String) (l : List Char) : Bool :=
  w.data.isPrefixOf l && wordBoundaryAfter (l.drop w.length)

/-- `re.match(r"^\d{10,13}\s+(?:chapter|epub|page|section|part)\b", lowered)`. -/
def genIsbnMatch (l : List Char) : Bool :=
  let d := countLeadDigits l
  decide (10 ≤ d ∧ d ≤ 13) &&
    (let l1 := l.drop d
     let w := (l1.takeWhile isPySpace).length
     decide (1 ≤ w) &&
       (let l2 := l1.drop w
        labelBoundary "chapter" l2 || labelBoundary "epub" l2 || labelBoundary "page" l2
          || labelBoundary "section" l2 || labelBoundary "part" l2))

/-- `re.match(r"^chapter\d{2,}\b", lowered)`. -/
def genChapterNNMatch (l : List Char) : Bool :=
  "chapter".data.isPrefixOf l &&
    (let l1 := l.drop 7
     let d := countLeadDigits l1
     decide (2 ≤ d) && wordBoundaryAfter (l1.drop d))

/-- `re.match(r"^ch\d{1,3}\b", lowered)`. -/
def genChNMatch (l : List Char) : Bool :=
  "ch".data.isPrefixOf l &&
    (let l1 := l.drop 2
     let d := countLeadDigits l1
     decide (1 ≤ d ∧ d ≤ 3) && wordBoundaryAfter (l1.drop d))

/-- `re.match(r"^[a-zA-Z]\s?\d{3,4}$", stripped)`. -/
def genLetterCodeMatch (l : List Char) : Bool :=
  match l with
  | c :: rest =>
    c.isAlpha &&
      (let r2 := match rest with
        | c2 :: r => if isPySpace c2 then r else rest
        | [] => rest
       let d := countLeadDigits r2
       decide ((d = 3 ∨ d = 4) ∧ r2.length = d))
  | [] => false

/-- `chapter_title._is_generic_chapter_title`. -/
def _is_generic_chapter_title (val : Option String) : Bool :=
  match val with
  | none => true
  | some v =>
    if v = "" then true
    else
      let stripped := pyStrip v
      let lowered := pyLower stripped
      if ".xhtml".data.isSuffixOf lowered.data || ".html".data.isSuffixOf lowered.data
          || ".htm".data.isSuffixOf lowered.data then true
      else if containsSub "!oebps!".data lowered.data
          || containsSub ['!', '!'] stripped.data then true
      else if containsSub "index_split".data lowered.data
          || containsSub "index split".data lowered.data then true
      else if searchWithPrev genPartSplitAt none lowered.data then true
      else if searchWithPrev genSplitAt none lowered.data then true
      else if genIsbnMatch lowered.data then true
      else if genChapterNNMatch lowered.data then true
      else if genChNMatch lowered.data then true
      else if genLetterCodeMatch stripped.data then true
      else false

/-- `chapter_title._clean_title`. -/
def _clean_title (val : Option String) (suppress_filename_like : Bool) : Option String :=
  match val with
  | none => none
  | some s =>
    if s = "" then none
    else
      let v := pyStrip s
      if v = "" then none
      else if suppress_filename_like && _is_generic_chapter_title (some v) then none
      else some v

/-! ## Context-string title extractor (`chapter_title._title_from_context`) -/

def isRomanCI (c : Char) : Bool :=
  let d := c.toLower
  d = 'i' || d = 'v' || d = 'x' || d = 'l' || d = 'c' || d = 'd' || d = 'm'

def countLeadRoman : List Char → Nat
  | [] => 0
  | c :: rest => if isRomanCI c then countLeadRoman rest + 1 else 0

/-- Linebreak characters recognized by Python `str.splitlines`. -/
def isPyLineBreak (c : Char) : Bool :=
  c = '\n' || c = '\r' || c = '\x0b' || c = '\x0c' || c = '\x1c' || c = '\x1d'
    || c = '\x1e' || c = '\x85' || c = '\u2028' || c = '\u2029'

def pySplitlinesAux : List Char → List Char → List String
  | [], acc => if acc = [] then [] else [String.mk acc.reverse]
  | '\r' :: '\n' :: rest, acc => String.mk acc.reverse :: pySplitlinesAux rest []
  | c :: rest, acc =>
    if isPyLineBreak c then String.mk acc.reverse :: pySplitlinesAux rest []
    else pySplitlinesAux rest (c :: acc)

/-- Model of Python `str.splitlines()`. -/
def pySplitlines (s : String) : List String := pySplitlinesAux s.data []

/-- Title-case a single alphabetic word as Python `str.title` does. -/
def titleWord (s : String) : String :=
  match s.data with
  | c :: rest => String.mk (c.toUpper :: rest.map Char.toLower)
  | [] => ""

/-- Separators accepted after the number in the Chapter/Part pattern
(`[:\-–—]`). -/
def isSepChapterRest (c : Char) : Bool := c = ':' || c = '-' || c = '–' || c = '—'

/-- Separators accepted in the numbered-heading pattern (`[\.\-:–—]`). -/
def isSepNumHead (c : Char) : Bool :=
  c = '.' || c = '-' || c = ':' || c = '–' || c = '—'

/-- Group 1 of the Chapter/Part regex: the keyword (tried in alternation
order) together with its `str.title()`-cased form and the remaining
characters. -/
def cpKindAt (l : List Char) : Option (String × List Char) :=
  if "chapter".data.isPrefixOf (l.map Char.toLower) then some ("Chapter", l.drop 7)
  else if "part".data.isPrefixOf (l.map Char.toLower) then some ("Part", l.drop 4)
  else none

/-- Group 2 of the Chapter/Part regex: `[0-9]{1,3}|[IVXLCDM]{1,8}`
(case-insensitive, greedy, returned as matched). -/
def cpNumAt (l : List Char) : Option (String × List Char) :=
  let d := countLeadDigits l
  if 1 ≤ d then
    let k := min d 3
    some (String.mk (l.take k), l.drop k)
  else
    let r := countLeadRoman l
    if 1 ≤ r then
      let k := min r 8
      some (String.mk (l.take k), l.drop k)
    else none

/-- Group 3 of the Chapter/Part regex, `(?:\s*[:\-–—]\s*([^\n]{1,80}))?`,
already stripped.  (A whitespace-only group, which full backtracking could
produce, strips to `""` and leads to the same output as an absent
group.) -/
def cpRestAfter (l : List Char) : Option String :=
  let l1 := l.dropWhile isPySpace
  match l1 with
  | c :: r =>
    if isSepChapterRest c then
      let r1 := r.dropWhile isPySpace
      let rest := (r1.takeWhile (fun ch => ch ≠ '\n')).take 80
      if rest = [] then none
      else some (pyStrip (String.mk rest))
    else none
  | [] => none

/-- Try the Chapter/Part regex at one position (boundary handled by the
caller) and format the result as the Python code does. -/
def cpMatchAt (l : List Char) : Option String :=
  match cpKindAt l with
  | none => none
  | some (kind, l1) =>
    let w := (l1.takeWhile isPySpace).length
    if 1 ≤ w then
      match cpNumAt (l1.drop w) with
      | none => none
      | some (num, l2) =>
        match cpRestAfter l2 with
        | some rest =>
          if rest ≠ "" then some (kind ++ " " ++ num ++ ": " ++ rest)
          else some (kind ++ " " ++ num)
        | none => some (kind ++ " " ++ num)
    else none

def cpSearchGo : Option Char → List Char → Option String
  | _, [] => none
  | prev, c :: rest =>
    let bOk : Bool := match prev with
      | none => true
      | some q => !isWordChar q
    match (if bOk then cpMatchAt (c :: rest) else none) with
    | some t => some t
    | none => cpSearchGo (some c) rest

/-- Leftmost match of
`\b(Chapter|Part)\s+([0-9]{1,3}|[IVXLCDM]{1,8})(?:\s*[:\-–—]\s*([^\n]{1,80}))?`
with the formatting applied by `_title_from_context`. -/
def cpSearch (s : String) : Option String := cpSearchGo none s.data

def descRange : Nat → List Nat
  | 0 => []
  | n + 1 => (n + 1) :: descRange n

/-- Backtracking over the greedy length of group 1 of the numbered-heading
regex: find the first `k` (largest first) such that `k` number characters
are followed by `\s*` and a separator; returns the separator-consumed
remainder. -/
def numHeadTryK (l : List Char) : List Nat → Option (Nat × List Char)
  | [] => none
  | k :: more =>
    let l1 := (l.drop k).dropWhile isPySpace
    match l1 with
    | c :: r =>
      if isSepNumHead c then some (k, r.dropWhile isPySpace)
      else numHeadTryK l more
    | [] => numHeadTryK l more

/-- `re.match(r"^(?:([0-9]{1,3}|[IVXLCDM]{1,8})\s*[\.\-:–—]\s*)([^\n]{1,80})$", ln, re.I)`
with the `"Section {num}: {rest}"` formatting; `none` also models the
`if rest:` fall-through. -/
def numHeadMatch (ln : String) : Option String :=
  let l := ln.data
  let dRun := countLeadDigits l
  let rRun := countLeadRoman l
  let ks : List Nat :=
    if 1 ≤ dRun then descRange (min dRun 3)
    else if 1 ≤ rRun then descRange (min rRun 8)
    else []
  match numHeadTryK l ks with
  | none => none
  | some (k, rest) =>
    if decide (1 ≤ rest.length ∧ rest.length ≤ 80)
        && (rest.all (fun c => c ≠ '\n')) then
      let num := String.mk (l.take k)
      let rest2 := pyStrip (String.mk rest)
      if rest2 ≠ "" then some ("Section " ++ num ++ ": " ++ rest2) else none
    else none

/-- Full match of the Appendix vocabulary pattern
`Appendix(?:\s+[A-Z]|\s+[IVXLCDM]{1,8}|\s+\d{1,3})?` (case-insensitive)
on an already-lowered line. -/
def appendixFull (l : List Char) : Bool :=
  if "appendix".data.isPrefixOf l then
    let r := l.drop 8
    match r with
    | [] => true
    | _ =>
      let w := (r.takeWhile isPySpace).length
      if 1 ≤ w then
        let r2 := r.drop w
        (decide (r2.length = 1) && r2.all Char.isAlpha)
          || (decide (1 ≤ r2.length ∧ r2.length ≤ 8) && r2.all isRomanCI)
          || (decide (1 ≤ r2.length ∧ r2.length ≤ 3) && r2.all Char.isDigit)
      else false
  else false

/-- Step 3 of `_title_from_context`: a line that full-matches one of the
fixed section names is returned verbatim. -/
def vocabMatch (ln : String) : Option String :=
  let low := pyLower ln
  if low = "introduction" ∨ low = "preface" ∨ low = "prologue" ∨ low = "epilogue"
      ∨ low = "foreword" ∨ low = "afterword" ∨ low = "conclusion"
      ∨ low = "acknowledgments" ∨ low = "acknowledments" then some ln
  else if appendixFull low.data then some ln
  else none

def firstSomeList : List (Option String) → Option String
  | [] => none
  | some t :: _ => some t
  | none :: rest => firstSomeList rest

/-- `chapter_title._title_from_context`. -/
def _title_from_context (context : Option String) : Option String :=
  match context with
  | none => none
  | some c =>
    if c = "" then none
    else
      let ctx := pyStrip c
      if ctx = "" then none
      else
        let head := String.mk (ctx.data.take 400)
        let lines := ((pySplitlines head).map pyStrip).filter (fun ln => ln != "")
        let first3 := lines.take 3
        match firstSomeList (first3.map (fun ln => cpSearch ln)) with
        | some t => some t
        | none =>
          match firstSomeList (first3.map (fun ln => numHeadMatch ln)) with
          | some t => some t
          | none =>
            match firstSomeList (first3.map (fun ln => vocabMatch ln)) with
            | some t => some t
            | none => cpSearch ctx

/-! ## `urllib.parse.urlparse(...).path`

Model of the path component as computed by CPython's `urlsplit` plus
`urlparse`'s params split: tab/CR/LF removal, scheme detection, netloc
extraction (with the unbalanced-bracket `ValueError`, modelled as `none`),
fragment and query stripping, and the `;`-params split for schemes in
`uses_params`. -/

def schemeChar (c : Char) : Bool :=
  c.isAlpha || c.isDigit || c = '+' || c = '-' || c = '.'

def inUsesParams (sc : String) : Bool :=
  sc = "ftp" || sc = "hdl" || sc = "prospero" || sc = "http" || sc = "imap"
    || sc = "https" || sc = "shttp" || sc = "rtsp" || sc = "rtspu" || sc = "sip"
    || sc = "sips" || sc = "mms" || sc = "sftp" || sc = "tel"

/-- `urllib.parse._splitparams` on a path, given that `';'` occurs in it. -/
def pySplitParams (l : List Char) : List Char :=
  if l.contains '/' then
    let ri := l.length - 1 - l.reverse.indexOf '/'
    let pre := l.take ri
    let post := l.drop ri
    match splitFirst [';'] post with
    | some (a, _) => pre ++ a
    | none => l
  else (((splitFirst [';'] l).map (fun p => p.1)).getD l)

/-- `urlparse(s).path`; `none` models the `ValueError` raised for an
invalid bracketed netloc. -/
def pyUrlparsePath (s : String) : Option String :=
  let l := s.data.filter (fun c => !(c = '\t' || c = '\r' || c = '\n'))
  let schemeSplit : Option String × List Char :=
    match splitFirst [':'] l with
    | some (pre, post) =>
      if (match pre with
          | c :: _ => c.isAlpha
          | [] => false)
          && pre.all schemeChar then
        (some (String.mk (pre.map Char.toLower)), post)
      else (none, l)
    | none => (none, l)
  let scheme := schemeSplit.1
  let l1 := schemeSplit.2
  let netRes : Option (List Char) :=
    if ['/', '/'].isPrefixOf l1 then
      let body := l1.drop 2
      let netloc := body.takeWhile (fun c => !(c = '/' || c = '?' || c = '#'))
      let rest := body.drop netloc.length
      if (netloc.contains '[' && !netloc.contains ']')
          || (netloc.contains ']' && !netloc.contains '[') then none
      else some rest
    else some l1
  match netRes with
  | none => none
  | some l2 =>
    let l3 := (((splitFirst ['#'] l2).map (fun p => p.1)).getD l2)
    let l4 := (((splitFirst ['?'] l3).map (fun p => p.1)).getD l3)
    let paramsOn : Bool :=
      match scheme with
      | none => true
      | some sc => inUsesParams sc
    let l5 := if paramsOn && l4.contains ';' then pySplitParams l4 else l4
    some (String.mk l5)

/-! ## Fallback title deriver (`chapter_title._fallback_title_from_content_id`) -/

/-- Replace runs of characters satisfying `p` by a single space
(`re.sub(r"[_\-]+", " ", s)` / `re.sub(r"\s+", " ", s)`). -/
def squashRunsAux (p : Char → Bool) : List Char → Bool → List Char
  | [], _ => []
  | c :: rest, inRun =>
    if p c then
      if inRun then squashRunsAux p rest true
      else ' ' :: squashRunsAux p rest true
    else c :: squashRunsAux p rest false

def squashUnderscoreDash (s : String) : String :=
  String.mk (squashRunsAux (fun c => c = '_' || c = '-') s.data false)

def collapseWs (s : String) : String :=
  String.mk (squashRunsAux isPySpace s.data false)

def digitsToNat (l : List Char) : Nat :=
  l.foldl (fun acc c => 10 * acc + (c.toNat - 48)) 0

/-- `\s*0*(\d{1,5})` anchored at the end of the string: the remainder must
be whitespace followed by digits only, and after the zeros consumed by
`0*` the captured group has 1–5 digits (an all-zero run captures a single
`"0"`).  Returns `int(group)`. -/
def numTailOk (l : List Char) : Option Nat :=
  let l1 := l.dropWhile isPySpace
  let d := countLeadDigits l1
  if decide (1 ≤ d ∧ l1.length = d) then
    let t := l1.dropWhile (fun c => c = '0')
    if t = [] ∨ t.length ≤ 5 then some (digitsToNat l1) else none
  else none

/-- Full match of `(?i) word \s*0*(\d{1,5})` formatted as `outW ++ " " ++ n`. -/
def fbLabelNum (low : List Char) (word outW : String) : Option String :=
  if word.data.isPrefixOf low then
    match numTailOk (low.drop word.length) with
    | some n => some (outW ++ " " ++ toString n)
    | none => none
  else none

/-- Full match of `(?i) word (?:\s*0*(\d{1,5}))?`. -/
def fbLabelOptNum (low : List Char) (word outW : String) : Option String :=
  if word.data.isPrefixOf low then
    let r := low.drop word.length
    if r = [] then some outW
    else
      match numTailOk r with
      | some n => some (outW ++ " " ++ toString n)
      | none => none
  else none

/-- `(?i)(?:ch|chap|chapter)\s*0*(\d{1,5})` full match (all three
alternatives produce the same formatted output). -/
def fbChapterFull (low : List Char) : Option String :=
  match fbLabelNum low "ch" "Chapter" with
  | some t => some t
  | none =>
    match fbLabelNum low "chap" "Chapter" with
    | some t => some t
    | none => fbLabelNum low "chapter" "Chapter"

/-- `(?i)prolog(?:ue)?(?:\s*0*(\d{1,5}))?` (and its epilogue twin): the
longer alternative is tried first; when the longer prefix is present the
shorter one can never succeed, so one ordered attempt each is exact. -/
def fbLogueFull (low : List Char) (short long outW : String) : Option String :=
  match fbLabelOptNum low long outW with
  | some t => some t
  | none => fbLabelOptNum low short outW

/-- `(?i)appendix(?:\s+([A-Z]|[IVXLCDM]{1,8}|\d{1,3}))?` full match; the
suffix is kept in its original case. -/
def fbAppendixFull (low orig : List Char) : Option String :=
  if "appendix".data.isPrefixOf low then
    let r := low.drop 8
    match r with
    | [] => some "Appendix"
    | _ =>
      let w := (r.takeWhile isPySpace).length
      if 1 ≤ w then
        let r2 := r.drop w
        if (decide (r2.length = 1) && r2.all Char.isAlpha)
            || (decide (1 ≤ r2.length ∧ r2.length ≤ 8) && r2.all isRomanCI)
            || (decide (1 ≤ r2.length ∧ r2.length ≤ 3) && r2.all Char.isDigit) then
          some ("Appendix " ++ String.mk (orig.drop (8 + w)))
        else none
      else none
  else none

/-- The ordered chain of full-string label patterns of the fallback
deriver. -/
def fbFullLabels (name : String) : Option String :=
  let low := (pyLower name).data
  let orig := name.data
  match fbChapterFull low with
  | some t => some t
  | none =>
  match fbLabelNum low "part" "Part" with
  | some t => some t
  | none =>
  match fbLabelOptNum low "preface" "Preface" with
  | some t => some t
  | none =>
  match fbLogueFull low "prolog" "prologue" "Prologue" with
  | some t => some t
  | none =>
  match fbLogueFull low "epilog" "epilogue" "Epilogue" with
  | some t => some t
  | none =>
  match fbAppendixFull low orig with
  | some t => some t
  | none =>
  match fbLogueFull low "intro" "introduction" "Introduction" with
  | some t => some t
  | none =>
  match fbLabelOptNum low "foreword" "Foreword" with
  | some t => some t
  | none => fbLabelOptNum low "afterword" "Afterword"

/-- One position of `re.search(r"(?i)\b word \s*0*(\d{1,5})\b", name)`:
after the word and optional whitespace there must be a digit run that
ends at a word boundary and whose non-zero part fits in the 1–5 digit
capture. -/
def fbSearchLabelAt (word : String) (low : List Char) : Option Nat :=
  if word.data.isPrefixOf low then
    let r := (low.drop word.length).dropWhile isPySpace
    let d := countLeadDigits r
    if decide (1 ≤ d) && wordBoundaryAfter (r.drop d) then
      let dig := r.take d
      let t := dig.dropWhile (fun c => c = '0')
      if t = [] ∨ t.length ≤ 5 then some (digitsToNat dig) else none
    else none
  else none

def fbSearchGo (word : String) : Option Char → List Char → Option Nat
  | _, [] => none
  | prev, c :: rest =>
    let bOk : Bool := match prev with
      | none => true
      | some q => !isWordChar q
    match (if bOk then fbSearchLabelAt word (c :: rest) else none) with
    | some n => some n
    | none => fbSearchGo word (some c) rest

/-- The embedded-label substring searches of the fallback deriver. -/
def fbSearchLabels (name : String) : Option String :=
  let low := (pyLower name).data
  match fbSearchGo "chapter" none low with
  | some n => some ("Chapter " ++ toString n)
  | none =>
    match fbSearchGo "part" none low with
    | some n => some ("Part " ++ toString n)
    | none =>
      match fbSearchGo "epub" none low with
      | some n => some ("EPUB " ++ toString n)
      | none => none

/-- `chapter_title._fallback_title_from_content_id`.  The `try/except`
around the body catches the `ValueError` that `urlparse` can raise, giving
`none`. -/
def _fallback_title_from_content_id (content_id : Option String) : Option String :=
  match content_id with
  | none => none
  | some cid =>
    if cid = "" then none
    else
      match pyUrlparsePath cid with
      | none => none
      | some rawPath =>
        let path := pyUnquote rawPath
        let tail :=
          match _tail_after_bang_bang_no_fragment (some cid) with
          | some t => if t ≠ "" then t else path
          | none => path
        let base0 := if tail ≠ "" then (splitSepRuns tail).getLast?.getD tail else ""
        let base1 := (((pySplit1 base0 "#").map (fun p => p.1)).getD base0)
        let base := String.mk (stripHtmlExtList base1.data)
        let name := pyStrip (collapseWs (squashUnderscoreDash base))
        match fbFullLabels name with
        | some t => some t
        | none =>
          match fbSearchLabels name with
          | some t => some t
          | none => if name ≠ "" then some name else none

/-! ## Data model

A `ContentRecord` is one row of the `content` table as loaded by
`export_highlights` (`SELECT ContentID, BookID, BookTitle, Title,
Attribution, ContentURL FROM content`); `ContentID` is the primary key and
always a string, the other columns are nullable.  These dictionaries never
carry a `Depth` key, so `determine_chapter_title`'s defensive
`cr.get("Depth")` always sees `None` and the parsed depth is the constant
`0` (see `recDepth`). -/

structure ContentRecord where
  ContentID : String
  BookID : Option String := none
  BookTitle : Option String := none
  Title : Option String := none
  Attribution : Option String := none
  ContentURL : Option String := none
  deriving DecidableEq, Repr

/-- `int(cr.get("Depth")) if ... else 0`: the loaded rows have no `Depth`
key, so this is always the default `0`. -/
def recDepth (_cr : ContentRecord) : Int := 0

/-- The only field of a bookmark row that `determine_chapter_title` reads
is `ContextString` (via `r.get("ContextString")`, kept only when it is a
string). -/
structure HighlightRow where
  ContextString : Option String := none
  deriving DecidableEq, Repr

/-! ## Python tuple comparison and best-candidate selection

The resolver compares `(score, length, title)` tuples with Python's `>`:
lexicographic on the integers, then code-point-lexicographic on the
strings.  `String` order in Lean is exactly that code-point order. -/

def tripleGt (x y : Int × Int × String) : Bool :=
  if x.1 ≠ y.1 then decide (y.1 < x.1)
  else if x.2.1 ≠ y.2.1 then decide (y.2.1 < x.2.1)
  else decide (y.2.2 < x.2.2)

/-! ## Association lists with Python `dict` semantics

Insertion order is preserved; plain assignment replaces in place (last
write wins), `setdefault` keeps the first binding. -/

def alistLookup {α : Type} (m : List (String × α)) (k : String) : Option α :=
  (m.find? (fun p => p.1 = k)).map (fun p => p.2)

def alistAssign {α : Type} (m : List (String × α)) (k : String) (v : α) :
    List (String × α) :=
  if m.any (fun p => p.1 = k) then
    m.map (fun p => if p.1 = k then (p.1, v) else p)
  else m ++ [(k, v)]

def alistSetdefault {α : Type} (m : List (String × α)) (k : String) (v : α) :
    List (String × α) :=
  if m.any (fun p => p.1 = k) then m else m ++ [(k, v)]

/-- `m.setdefault(k, []).append(v)`. -/
def alistAppendAt {α : Type} (m : List (String × List α)) (k : String) (v : α) :
    List (String × List α) :=
  if m.any (fun p => p.1 = k) then
    m.map (fun p => if p.1 = k then (p.1, p.2 ++ [v]) else p)
  else m ++ [(k, [v])]

/-! ## Chapter title resolver (`chapter_title.determine_chapter_title`)

Transliterated statement by statement; `chN` is the value of the Python
variable `ch_title` after the `N`-th stage's block.  `content_by_*.get(key)
or []` is `(alistLookup _ key).getD []` (a present empty list is falsy in
Python, but the builder never stores empty lists, and `or []` maps both
cases to `[]`). -/

/-- Stage-3/5/7 loop body: fold the `(score, length, title)` tuple
comparison over the candidate rows. -/
def bestScoredTitle (cand_rows : List ContentRecord) (cur_tail : Option String)
    (suppress : Bool) : Int × Int × String :=
  cand_rows.foldl
    (fun best cr =>
      match _clean_title cr.Title suppress with
      | none => best
      | some t =>
        if pyLower t = "table of contents" then best
        else
          let score := _score_tail_similarity cur_tail
            (_tail_after_bang_bang_no_fragment (some cr.ContentID))
          let tup : Int × Int × String := (score, (t.length : Int), t)
          if tripleGt tup best then tup else best)
    ((-1 : Int), (-1 : Int), "")

/-- Stage-4 loop body: keep the longest cleaned, non-ToC title (strict
`>` keeps the first on ties). -/
def bestLongTitle (cand_rows : List ContentRecord) (suppress : Bool) :
    Option String × Int :=
  cand_rows.foldl
    (fun (best : Option String × Int) cr =>
      match _clean_title cr.Title suppress with
      | none => best
      | some t =>
        if pyLower t = "table of contents" then best
        else if decide (best.2 < (t.length : Int)) then (some t, (t.length : Int))
        else best)
    (none, (-1 : Int))

/-- Stage-6 inner loop body: best `(depth, length, title)` tuple, with the
separately-tracked `best_title`. -/
def bestDepthTitle (cand_rows : List ContentRecord) (suppress : Bool) :
    Option String × (Int × Int × String) :=
  cand_rows.foldl
    (fun (best : Option String × (Int × Int × String)) cr =>
      match _clean_title cr.Title suppress with
      | none => best
      | some t =>
        if pyLower t = "table of contents" then best
        else
          let tup : Int × Int × String := (recDepth cr, (t.length : Int), t)
          if tripleGt tup best.2 then (some t, tup) else best)
    (none, ((-1 : Int), (-1 : Int), ""))

/-- Stage-6 `for n in (1, 2, 3, 4, 5)` loop with its `break`. -/
def siblingTailLoop (tail : String)
    (content_by_tail : List (String × List ContentRecord)) (suppress : Bool) :
    List Nat → Option String
  | [] => none
  | n :: more =>
    let alt_tail := tail ++ "-" ++ toString n
    let cand_rows := (alistLookup content_by_tail alt_tail).getD []
    match (bestDepthTitle cand_rows suppress).1 with
    | some t => some t
    | none => siblingTailLoop tail content_by_tail suppress more

/-- Stage 1 of the resolver: `ch_title = _clean_title(ch_row.get("Title")
if ch_row else None, ...)`. -/
def stage1Block (ch_row : Option ContentRecord) (suppress : Bool) : Option String :=
  _clean_title
    (match ch_row with
     | some cr => cr.Title
     | none => none)
    suppress

/-- Stage 2 block (`if not ch_title:` context extraction); `prev` is the
value of the Python variable `ch_title` before the block. -/
def stage2Block (r : HighlightRow) (suppress : Bool) (prev : Option String) :
    Option String :=
  if pyTruthy prev then prev
  else
    match _title_from_context r.ContextString with
    | some ctx_title => _clean_title (some ctx_title) suppress
    | none => prev

/-- Stage 3 block (`if (not ch_title) and frag_base:`). -/
def stage3Block (cont_id frag_base : Option String)
    (content_by_frag_base : List (String × List ContentRecord))
    (suppress : Bool) (prev : Option String) : Option String :=
  if pyTruthy prev then prev
  else
    match frag_base with
    | some fb =>
      if fb ≠ "" then
        let cand_rows := (alistLookup content_by_frag_base fb).getD []
        let cur_tail := _tail_after_bang_bang_no_fragment cont_id
        let best := bestScoredTitle cand_rows cur_tail suppress
        if best.2.2 ≠ "" then some best.2.2 else prev
      else prev
    | none => prev

/-- Stage 4 block (exact-tail lookup). -/
def stage4Block (cont_id : Option String)
    (content_by_tail : List (String × List ContentRecord))
    (suppress : Bool) (prev : Option String) : Option String :=
  if pyTruthy prev then prev
  else
    match _tail_after_bang_bang_no_fragment cont_id with
    | some tail =>
      if tail ≠ "" then
        let cand_rows := (alistLookup content_by_tail tail).getD []
        match (bestLongTitle cand_rows suppress).1 with
        | some t => some t
        | none => prev
      else prev
    | none => prev

/-- Stage 5 block (p-anchor lookup). -/
def stage5Block (cont_id : Option String)
    (content_by_p_anchor : List (String × List ContentRecord))
    (suppress : Bool) (prev : Option String) : Option String :=
  if pyTruthy prev then prev
  else
    match _p_anchor cont_id with
    | some pa =>
      if pa ≠ "" then
        let cand_rows := (alistLookup content_by_p_anchor pa).getD []
        let cur_tail := _tail_after_bang_bang_no_fragment cont_id
        let best := bestScoredTitle cand_rows cur_tail suppress
        if best.2.2 ≠ "" then some best.2.2 else prev
      else prev
    | none => prev

/-- Stage 6 block (sibling tails `-1` … `-5`). -/
def stage6Block (cont_id : Option String)
    (content_by_tail : List (String × List ContentRecord))
    (suppress : Bool) (prev : Option String) : Option String :=
  if pyTruthy prev then prev
  else
    match _tail_after_bang_bang_no_fragment cont_id with
    | some tail =>
      if tail ≠ "" then
        match siblingTailLoop tail content_by_tail suppress [1, 2, 3, 4, 5] with
        | some t => some t
        | none => prev
      else prev
    | none => prev

/-- Stage 7 block (pre-bang lookup). -/
def stage7Block (cont_id pre_bang : Option String)
    (content_by_pre_bang : List (String × List ContentRecord))
    (suppress : Bool) (prev : Option String) : Option String :=
  if pyTruthy prev then prev
  else
    match pre_bang with
    | some pb =>
      if pb ≠ "" then
        let cand_rows := (alistLookup content_by_pre_bang pb).getD []
        let cur_tail := _tail_after_bang_bang_no_fragment cont_id
        let best := bestScoredTitle cand_rows cur_tail suppress
        if best.2.2 ≠ "" then some best.2.2 else prev
      else prev
    | none => prev

/-- Stage 8 block (final identifier-derived fallback, cleaned). -/
def stage8Block (cont_id cont_id_no_frag : Option String)
    (suppress : Bool) (prev : Option String) : Option String :=
  if pyTruthy prev then prev
  else
    _clean_title
      (_fallback_title_from_content_id
        (match cont_id_no_frag with
         | some s => if s ≠ "" then some s else cont_id
         | none => cont_id))
      suppress

/-- `chapter_title.determine_chapter_title`: the Python function is a
sequence of `if not ch_title:` blocks rebinding `ch_title`; each
`stageNBlock` is one of those blocks, threaded through `prev`. -/
def determine_chapter_title (r : HighlightRow) (ch_row : Option ContentRecord)
    (cont_id cont_id_no_frag frag_base pre_bang : Option String)
    (content_by_frag_base content_by_pre_bang content_by_p_anchor content_by_tail :
      List (String × List ContentRecord))
    (suppress_filename_like : Bool) : Option String :=
  stage8Block cont_id cont_id_no_frag suppress_filename_like
    (stage7Block cont_id pre_bang content_by_pre_bang suppress_filename_like
      (stage6Block cont_id content_by_tail suppress_filename_like
        (stage5Block cont_id content_by_p_anchor suppress_filename_like
          (stage4Block cont_id content_by_tail suppress_filename_like
            (stage3Block cont_id frag_base content_by_frag_base suppress_filename_like
              (stage2Block r suppress_filename_like
                (stage1Block ch_row suppress_filename_like)))))))

/-! ## Content index builder (`exporter.export_highlights`, content loop)

The loop over `SELECT ... FROM content` populates nine mappings.  Four are
single-record dicts — `content_by_id` and `content_by_url` by plain
assignment (last row wins), `content_by_id_norm` and `content_by_url_norm`
by `setdefault` (first row wins) — and five are list-valued
(`setdefault(key, []).append(row)`), keyed by fragment base, pre-bang,
tail, p-anchor and `BookID`. -/

structure ContentIndices where
  content_by_id : List (String × ContentRecord) := []
  content_by_url : List (String × ContentRecord) := []
  content_by_frag_base : List (String × List ContentRecord) := []
  content_by_pre_bang : List (String × List ContentRecord) := []
  content_by_book : List (String × List ContentRecord) := []
  content_by_tail : List (String × List ContentRecord) := []
  content_by_p_anchor : List (String × List ContentRecord) := []
  content_by_id_norm : List (String × ContentRecord) := []
  content_by_url_norm : List (String × ContentRecord) := []
  deriving Repr

/-- Keep an optional string only when it is Python-truthy (the `if key:`
guards of the loading loop). -/
def truthyOpt : Option String → Option String
  | some s => if s ≠ "" then some s else none
  | none => none

/-- Key of `content_by_id`: the raw `ContentID` (stored unconditionally). -/
def idKey (d : ContentRecord) : Option String := some d.ContentID

/-- Key of `content_by_id_norm` (`nid = _normalize_id(...)`, `if nid:`). -/
def idNormKey (d : ContentRecord) : Option String :=
  truthyOpt (_normalize_id (some d.ContentID))

/-- Key of `content_by_url` (`url = d.get("ContentURL")`, `if url:`). -/
def urlKey (d : ContentRecord) : Option String := truthyOpt d.ContentURL

/-- Key of `content_by_url_norm` (computed only inside `if url:`). -/
def urlNormKey (d : ContentRecord) : Option String :=
  match urlKey d with
  | some url => truthyOpt (_normalize_id (some url))
  | none => none

def fragBaseKey (d : ContentRecord) : Option String :=
  truthyOpt (_fragment_base (some d.ContentID))

def preBangKey (d : ContentRecord) : Option String :=
  truthyOpt (_pre_bang (some d.ContentID))

def tailKey (d : ContentRecord) : Option String :=
  truthyOpt (_tail_after_bang_bang_no_fragment (some d.ContentID))

def pAnchorKey (d : ContentRecord) : Option String :=
  truthyOpt (_p_anchor (some d.ContentID))

/-- Key of `content_by_book`: `isinstance(bid, str)` keeps any string,
including the empty one — no truthiness test here. -/
def bookKey (d : ContentRecord) : Option String := d.BookID

/-- Plain-assignment update (`m[k] = d`, last write wins). -/
def stepSingleLast (key : ContentRecord → Option String)
    (m : List (String × ContentRecord)) (d : ContentRecord) :
    List (String × ContentRecord) :=
  match key d with
  | some k => alistAssign m k d
  | none => m

/-- `setdefault` update (`m.setdefault(k, d)`, first write wins). -/
def stepSingleFirst (key : ContentRecord → Option String)
    (m : List (String × ContentRecord)) (d : ContentRecord) :
    List (String × ContentRecord) :=
  match key d with
  | some k => alistSetdefault m k d
  | none => m

/-- List-valued update (`m.setdefault(k, []).append(d)`). -/
def stepMulti (key : ContentRecord → Option String)
    (m : List (String × List ContentRecord)) (d : ContentRecord) :
    List (String × List ContentRecord) :=
  match key d with
  | some k => alistAppendAt m k d
  | none => m

/-- One iteration of the content-loading loop: each mapping is updated
under its own derived key. -/
def indexStep (ix : ContentIndices) (d : ContentRecord) : ContentIndices :=
  { content_by_id := stepSingleLast idKey ix.content_by_id d
    content_by_url := stepSingleLast urlKey ix.content_by_url d
    content_by_frag_base := stepMulti fragBaseKey ix.content_by_frag_base d
    content_by_pre_bang := stepMulti preBangKey ix.content_by_pre_bang d
    content_by_book := stepMulti bookKey ix.content_by_book d
    content_by_tail := stepMulti tailKey ix.content_by_tail d
    content_by_p_anchor := stepMulti pAnchorKey ix.content_by_p_anchor d
    content_by_id_norm := stepSingleFirst idNormKey ix.content_by_id_norm d
    content_by_url_norm := stepSingleFirst urlNormKey ix.content_by_url_norm d }

/-- The full index-building pass over the loaded content records. -/
def buildContentIndices (records : List ContentRecord) : ContentIndices :=
  records.foldl indexStep {}

/-! ## Specification-side definitions

The definitions below formalize the claims' own wording.  Where a claim is
refuted, the claim-side definition is compared against the source-side one
at a concrete input; where a claim holds, the source-side definition is
proved equal to the claim-side formulation. -/

/-- Fold step that skips elements on which `f` is absent — the shape of
each candidate loop of the resolver. -/
def optFoldStep {α β γ : Type} (f : α → Option β) (g : γ → β → γ) (st : γ) (a : α) : γ :=
  match f a with
  | none => st
  | some b => g st b

/-- Pick the maximum of a list under a strict order `gt`, preferring the
earliest element on ties (a later element replaces the current best only
when strictly greater). -/
def selBestGen {α : Type} (gt : α → α → Bool) : List α → Option α
  | [] => none
  | x :: rest =>
    match selBestGen gt rest with
    | none => some x
    | some m => if gt m x then some m else some x

/-- Stage-3/5/7 candidate: a cleaned, non-"table of contents" title paired
with its `(score, length, title)` ranking tuple. -/
def candTriple (cur_tail : Option String) (suppress : Bool) (cr : ContentRecord) :
    Option (Int × Int × String) :=
  match _clean_title cr.Title suppress with
  | none => none
  | some t =>
    if pyLower t = "table of contents" then none
    else
      some (_score_tail_similarity cur_tail
              (_tail_after_bang_bang_no_fragment (some cr.ContentID)),
            (t.length : Int), t)

/-- Stage-4 candidate: a cleaned, non-ToC title with its length. -/
def candLen (suppress : Bool) (cr : ContentRecord) : Option (String × Int) :=
  match _clean_title cr.Title suppress with
  | none => none
  | some t =>
    if pyLower t = "table of contents" then none
    else some (t, (t.length : Int))

/-- Stage-6 candidate: a cleaned, non-ToC title with its
`(depth, length, title)` tuple. -/
def candDepth (suppress : Bool) (cr : ContentRecord) :
    Option (String × (Int × Int × String)) :=
  match _clean_title cr.Title suppress with
  | none => none
  | some t =>
    if pyLower t = "table of contents" then none
    else some (t, (recDepth cr, (t.length : Int), t))

/-- The highest-scoring candidate title (score ties broken by longer
title, then by code-point order, first candidate kept on full ties). -/
def bestScoredSpec (rows : List ContentRecord) (cur_tail : Option String)
    (suppress : Bool) : Option String :=
  (selBestGen tripleGt (rows.filterMap (candTriple cur_tail suppress))).map
    (fun m => m.2.2)

/-- The longest candidate title (length only, first kept on ties). -/
def bestLongSpec (rows : List ContentRecord) (suppress : Bool) : Option String :=
  (selBestGen (fun a b : String × Int => decide (b.2 < a.2))
      (rows.filterMap (candLen suppress))).map (fun m => m.1)

/-- The candidate with the greatest `(depth, length, title)` tuple. -/
def bestDepthSpec (rows : List ContentRecord) (suppress : Bool) : Option String :=
  (selBestGen (fun a b : String × (Int × Int × String) => tripleGt a.2 b.2)
      (rows.filterMap (candDepth suppress))).map (fun m => m.1)

/-- Resolver stage 1: the matched content record's own title, cleaned. -/
def stage1Resolver (ch_row : Option ContentRecord) (suppress : Bool) : Option String :=
  _clean_title
    (match ch_row with
     | some cr => cr.Title
     | none => none)
    suppress

/-- Resolver stage 2: a title extracted from the context string, cleaned. -/
def stage2Resolver (r : HighlightRow) (suppress : Bool) : Option String :=
  match _title_from_context r.ContextString with
  | some ctx_title => _clean_title (some ctx_title) suppress
  | none => none

/-- Resolver stage 3: highest-scoring title among records sharing the
fragment base. -/
def stage3Resolver (cont_id frag_base : Option String)
    (content_by_frag_base : List (String × List ContentRecord))
    (suppress : Bool) : Option String :=
  match frag_base with
  | some fb =>
    if fb ≠ "" then
      bestScoredSpec ((alistLookup content_by_frag_base fb).getD [])
        (_tail_after_bang_bang_no_fragment cont_id) suppress
    else none
  | none => none

/-- Resolver stage 4: longest title among records sharing the exact tail
(length, not similarity score, is the tie-break). -/
def stage4Resolver (cont_id : Option String)
    (content_by_tail : List (String × List ContentRecord))
    (suppress : Bool) : Option String :=
  match _tail_after_bang_bang_no_fragment cont_id with
  | some tail =>
    if tail ≠ "" then
      bestLongSpec ((alistLookup content_by_tail tail).getD []) suppress
    else none
  | none => none

/-- Resolver stage 5: highest-scoring title among records sharing the
p-anchor. -/
def stage5Resolver (cont_id : Option String)
    (content_by_p_anchor : List (String × List ContentRecord))
    (suppress : Bool) : Option String :=
  match _p_anchor cont_id with
  | some pa =>
    if pa ≠ "" then
      bestScoredSpec ((alistLookup content_by_p_anchor pa).getD [])
        (_tail_after_bang_bang_no_fragment cont_id) suppress
    else none
  | none => none

/-- Resolver stage 6: sibling tails `-1` … `-5`, greater depth then longer
title, stopping at the first offset that yields a candidate. -/
def stage6Resolver (cont_id : Option String)
    (content_by_tail : List (String × List ContentRecord))
    (suppress : Bool) : Option String :=
  match _tail_after_bang_bang_no_fragment cont_id with
  | some tail =>
    if tail ≠ "" then
      firstSomeList ([1, 2, 3, 4, 5].map (fun n =>
        bestDepthSpec
          ((alistLookup content_by_tail (tail ++ "-" ++ toString n)).getD [])
          suppress))
    else none
  | none => none

/-- Resolver stage 7: highest-scoring title among records sharing the
pre-bang prefix. -/
def stage7Resolver (cont_id pre_bang : Option String)
    (content_by_pre_bang : List (String × List ContentRecord))
    (suppress : Bool) : Option String :=
  match pre_bang with
  | some pb =>
    if pb ≠ "" then
      bestScoredSpec ((alistLookup content_by_pre_bang pb).getD [])
        (_tail_after_bang_bang_no_fragment cont_id) suppress
    else none
  | none => none

/-- Resolver stage 8: a title synthesized from the content identifier,
cleaned. -/
def stage8Resolver (cont_id cont_id_no_frag : Option String)
    (suppress : Bool) : Option String :=
  _clean_title
    (_fallback_title_from_content_id
      (match cont_id_no_frag with
       | some s => if s ≠ "" then some s else cont_id
       | none => cont_id))
    suppress

/-- The claim-side resolver: the eight stages tried in strict order,
returning the first non-absent result. -/
def resolverCascade (r : HighlightRow) (ch_row : Option ContentRecord)
    (cont_id cont_id_no_frag frag_base pre_bang : Option String)
    (content_by_frag_base content_by_pre_bang content_by_p_anchor content_by_tail :
      List (String × List ContentRecord))
    (suppress : Bool) : Option String :=
  firstSomeList
    [stage1Resolver ch_row suppress,
     stage2Resolver r suppress,
     stage3Resolver cont_id frag_base content_by_frag_base suppress,
     stage4Resolver cont_id content_by_tail suppress,
     stage5Resolver cont_id content_by_p_anchor suppress,
     stage6Resolver cont_id content_by_tail suppress,
     stage7Resolver cont_id pre_bang content_by_pre_bang suppress,
     stage8Resolver cont_id cont_id_no_frag suppress]

/-- Split at the last occurrence of a separator (fuel-driven left scan,
fuel bounded by the list length). -/
def splitLastAux (sep : List Char) : Nat → List Char → Option (List Char × List Char)
  | 0, _ => none
  | fuel + 1, l =>
    match splitFirst sep l with
    | none => none
    | some (pre, post) =>
      match splitLastAux sep fuel post with
      | some (pre2, post2) => some (pre ++ sep ++ pre2, post2)
      | none => some (pre, post)

def splitLast (sep : List Char) (l : List Char) : Option (List Char × List Char) :=
  splitLastAux sep (l.length + 1) l

/-- Claim C4 as stated: the portion after the *last* container separator
(`!!`, or `!` when no `!!` occurs), fragment stripped, percent-decoded;
absent for absent input or an input with no separator. -/
def tailSpecLastSep : Option String → Option String
  | none => none
  | some cid =>
    match (if strContains cid "!!" then splitLast "!!".data cid.data
           else if strContains cid "!" then splitLast ['!'] cid.data
           else none) with
    | none => none
    | some (_, post) =>
      some (pyUnquote (String.mk
        (match splitFirst ['#'] post with
         | some (pre, _) => pre
         | none => post)))

/-- Claim C4 amended: the portion after the *first* container separator
(`!!`, or `!` when no `!!` occurs), fragment stripped, percent-decoded;
absent for absent input or an input with no separator. -/
def tailSpecFirstSep : Option String → Option String
  | none => none
  | some cid =>
    match (if strContains cid "!!" then splitFirst "!!".data cid.data
           else if strContains cid "!" then splitFirst ['!'] cid.data
           else none) with
    | none => none
    | some (_, post) =>
      some (pyUnquote (String.mk
        (match splitFirst ['#'] post with
         | some (pre, _) => pre
         | none => post)))

/-- Claim C5 as stated: the pre-bang form is the portion before the
container separator, absent when the id contains no separator. -/
def preBangClaim : Option String → Option String
  | none => none
  | some cid =>
    match (if strContains cid "!!" then splitFirst "!!".data cid.data
           else if strContains cid "!" then splitFirst ['!'] cid.data
           else none) with
    | none => none
    | some (pre, _) => some (String.mk pre)

/-- Claim C5 amended: before the first `!!` when one occurs; otherwise the
fragment base when the id has a fragment; otherwise the id itself; absent
only for absent or empty input. -/
def preBangAmended : Option String → Option String
  | none => none
  | some cid =>
    if cid = "" then none
    else
      match splitFirst "!!".data cid.data with
      | some (pre, _) => some (String.mk pre)
      | none =>
        match _fragment_base (some cid) with
        | some fb => if fb ≠ "" then some fb else some cid
        | none => some cid

/-- Claim C6 as stated: sum of 100 for identical tails, 80 for equal base
filenames, the closeness bonus when both *tails* contain a numeric token
(first numbers of the tails), and the shared-leading-segment bonus; 0 for
an absent candidate. -/
def scoreClaim (cur_tail cand_tail : Option String) : Int :=
  match cand_tail with
  | none => 0
  | some ct =>
    let cur := cur_tail.getD ""
    (if ct = cur then 100 else 0)
      + (if _basename_no_ext (some cur) = _basename_no_ext (some ct) then 80 else 0)
      + (match _extract_numbers cur, _extract_numbers ct with
         | cn :: _, dn :: _ =>
           max 0 (50 - min ((((cn : Int) - (dn : Int)).natAbs : Int)) 50)
         | _, _ => 0)
      + min ((commonLeadCount (_split_dirs (some cur)) (_split_dirs (some ct)) : Int) * 5) 20

/-- Claim C6 amended: the numeric-closeness bonus uses the first numbers
of the *base filenames*; the 80-point bonus requires both base filenames
non-empty; the score is 0 for an absent or empty candidate tail. -/
def scoreAmended (cur_tail cand_tail : Option String) : Int :=
  match cand_tail with
  | none => 0
  | some ct =>
    if ct = "" then 0
    else
      let cur := cur_tail.getD ""
      let curBase := _basename_no_ext (some cur)
      let candBase := _basename_no_ext (some ct)
      (if ct = cur then 100 else 0)
        + (if curBase ≠ "" ∧ candBase ≠ "" ∧ curBase = candBase then 80 else 0)
        + (match _extract_numbers curBase, _extract_numbers candBase with
           | cn :: _, dn :: _ =>
             max 0 (50 - min ((((cn : Int) - (dn : Int)).natAbs : Int)) 50)
           | _, _ => 0)
        + (if _split_dirs (some cur) ≠ [] ∧ _split_dirs (some ct) ≠ [] then
            min ((commonLeadCount (_split_dirs (some cur)) (_split_dirs (some ct)) : Int) * 5) 20
          else 0)

/-- The generic shapes listed by claim C7, as one disjunction over the
stripped/lowered input (the classifier lowers the stripped string before
testing the case-insensitive shapes). -/
def genericShape (v : String) : Bool :=
  if v = "" then true
  else
    let stripped := pyStrip v
    let lowered := pyLower stripped
    (".xhtml".data.isSuffixOf lowered.data || ".html".data.isSuffixOf lowered.data
        || ".htm".data.isSuffixOf lowered.data)
      || (containsSub "!oebps!".data lowered.data
        || containsSub ['!', '!'] stripped.data)
      || (containsSub "index_split".data lowered.data
        || containsSub "index split".data lowered.data)
      || searchWithPrev genPartSplitAt none lowered.data
      || searchWithPrev genSplitAt none lowered.data
      || genIsbnMatch lowered.data
      || genChapterNNMatch lowered.data
      || genChNMatch lowered.data
      || genLetterCodeMatch stripped.data

/-- Claim C8's staged description of the context extractor: strip the
context, keep only the first 400 characters split into non-empty trimmed
lines, examine only the first 3 lines with the three structured patterns
in order, then apply the Chapter/Part regex to the entire (stripped)
context as a last resort. -/
def contextCascade (ctx : String) : Option String :=
  let stripped := pyStrip ctx
  let lines3 :=
    (((pySplitlines (String.mk (stripped.data.take 400))).map pyStrip).filter
      (fun ln => ln != "")).take 3
  firstSomeList
    ((lines3.map cpSearch) ++ (lines3.map numHeadMatch) ++ (lines3.map vocabMatch)
      ++ [cpSearch stripped])

/-! ## Helper lemmas -/

lemma dropWhile_head_not {α : Type} (p : α → Bool) (l : List α) {c : α}
    (h : (l.dropWhile p).head? = some c) : p c = false := by
  induction l with
  | nil => simp [List.dropWhile] at h
  | cons a rest ih =>
    rw [List.dropWhile_cons] at h
    by_cases hp : p a
    · rw [if_pos hp] at h; exact ih h
    · rw [if_neg hp] at h
      simp only [List.head?_cons, Option.some.injEq] at h
      subst h
      simpa using hp

lemma dropWhile_eq_self_of_head {α : Type} (p : α → Bool) (l : List α)
    (h : ∀ c, l.head? = some c → p c = false) : l.dropWhile p = l := by
  cases l with
  | nil => rfl
  | cons a rest =>
    have ha := h a rfl
    rw [List.dropWhile_cons]
    simp [ha]

lemma dropWhile_idem {α : Type} (p : α → Bool) (l : List α) :
    (l.dropWhile p).dropWhile p = l.dropWhile p :=
  dropWhile_eq_self_of_head p _ (fun _ hc => dropWhile_head_not p l hc)

lemma dropWhile_getLast? {α : Type} (p : α → Bool) (l : List α)
    (h : l.dropWhile p ≠ []) : (l.dropWhile p).getLast? = l.getLast? := by
  induction l with
  | nil => simp [List.dropWhile] at h
  | cons a rest ih =>
    rw [List.dropWhile_cons] at h ⊢
    by_cases hp : p a
    · rw [if_pos hp] at h ⊢
      rw [ih h]
      have hr : rest ≠ [] := by
        intro he
        subst he
        simp [List.dropWhile] at h
      rw [List.getLast?_cons]
      cases hgl : rest.getLast? with
      | none => exact absurd (List.getLast?_eq_none_iff.mp hgl) hr
      | some x => simp
    · rw [if_neg hp]

lemma pyStripList_dropWhile (l : List Char) :
    (pyStripList l).dropWhile isPySpace = pyStripList l := by
  apply dropWhile_eq_self_of_head
  intro c hc
  unfold pyStripList at hc
  rw [List.head?_reverse] at hc
  have hne : (l.dropWhile isPySpace).reverse.dropWhile isPySpace ≠ [] := by
    intro he
    rw [he] at hc
    simp at hc
  rw [dropWhile_getLast? _ _ hne, List.getLast?_reverse] at hc
  exact dropWhile_head_not _ _ hc

lemma pyStripList_idem (l : List Char) :
    pyStripList (pyStripList l) = pyStripList l := by
  show (((pyStripList l).dropWhile isPySpace).reverse.dropWhile isPySpace).reverse
    = pyStripList l
  rw [pyStripList_dropWhile]
  have h2 : (pyStripList l).reverse = (l.dropWhile isPySpace).reverse.dropWhile isPySpace := by
    unfold pyStripList
    rw [List.reverse_reverse]
  rw [h2, dropWhile_idem, ← h2, List.reverse_reverse]

lemma pyStrip_idem (s : String) : pyStrip (pyStrip s) = pyStrip s :=
  congrArg String.mk (pyStripList_idem s.data)

/-- Every present output of `_clean_title` is non-empty, has no leading or
trailing whitespace, and (when suppression is on) is not generic. -/
lemma clean_spec {v : Option String} {b : Bool} {t : String}
    (h : _clean_title v b = some t) :
    t ≠ "" ∧ pyStrip t = t ∧ (b = true → _is_generic_chapter_title (some t) = false) := by
  match v with
  | none => simp [_clean_title] at h
  | some s =>
    simp only [_clean_title] at h
    by_cases h0 : s = ""
    · simp [h0] at h
    · rw [if_neg h0] at h
      by_cases h1 : pyStrip s = ""
      · simp [h1] at h
      · rw [if_neg h1] at h
        by_cases h2 : (b && _is_generic_chapter_title (some (pyStrip s))) = true
        · rw [if_pos h2] at h
          exact absurd h (by simp)
        · rw [if_neg h2] at h
          have ht : t = pyStrip s := by
            injection h with h'
            exact h'.symm
          subst ht
          refine ⟨h1, pyStrip_idem s, ?_⟩
          intro hb
          subst hb
          simpa using h2

/-! ## Claim C3 -/

/-- C3: for every optional string `s` and boolean `b`,
`clean(clean(s, b), b) == clean(s, b)` — `_clean_title` is idempotent for
both values of the `suppress_filename_like` flag. -/
theorem clean_title_idempotent (s : Option String) (b : Bool) :
    _clean_title (_clean_title s b) b = _clean_title s b := by
  cases hc : _clean_title s b with
  | none => rfl
  | some t =>
    obtain ⟨h1, h2, h3⟩ := clean_spec hc
    simp only [_clean_title]
    rw [if_neg h1, h2, if_neg h1]
    cases b with
    | false => simp
    | true => simp [h3 rfl]

/-! ## Claim C4 -/

lemma tail_eq_spec_aux (cid : String) :
    _tail_after_bang_bang_no_fragment (some cid) = tailSpecFirstSep (some cid) := by
  by_cases h0 : cid = ""
  · subst h0; rfl
  · simp only [_tail_after_bang_bang_no_fragment, tailSpecFirstSep, if_neg h0]
    by_cases h1 : strContains cid "!!" = true
    · have hsome : (splitFirst "!!".data cid.data).isSome = true := h1
      cases hs : splitFirst "!!".data cid.data with
      | none => rw [hs] at hsome; simp at hsome
      | some pr =>
        obtain ⟨pre, post⟩ := pr
        simp only [h1, if_true, pySplit1, hs, Option.map_some']
        cases hp : splitFirst ['#'] post with
        | none => simp [pySplit1, hp]
        | some q =>
          obtain ⟨x, y⟩ := q
          simp [pySplit1, hp]
    · simp only [h1, if_false, Bool.false_eq_true]
      by_cases h2 : strContains cid "!" = true
      · have hsome : (splitFirst ['!'] cid.data).isSome = true := h2
        cases hs : splitFirst ['!'] cid.data with
        | none => rw [hs] at hsome; simp at hsome
        | some pr =>
          obtain ⟨pre, post⟩ := pr
          have hd : ("!" : String).data = ['!'] := rfl
          simp only [h2, if_true, pySplit1, hd, hs, Option.map_some']
          cases hp : splitFirst ['#'] post with
          | none => simp [pySplit1, hp]
          | some q =>
            obtain ⟨x, y⟩ := q
            simp [pySplit1, hp]
      · simp [h1, h2]

/-- C4, counterexample: the claim says the tail is the portion after the
*last* container separator, but on `"a!!b!!c"` the code returns the
portion after the *first* `!!`, namely `"b!!c"`, while the last-separator
reading gives `"c"`. -/
theorem tail_not_last_separator :
    _tail_after_bang_bang_no_fragment (some "a!!b!!c") = some "b!!c"
      ∧ tailSpecLastSep (some "a!!b!!c") = some "c"
      ∧ _tail_after_bang_bang_no_fragment (some "a!!b!!c")
          ≠ tailSpecLastSep (some "a!!b!!c") := by
  refine ⟨by decide, by decide, by decide⟩

/-- C4, amended: `_tail_after_bang_bang_no_fragment` returns the portion
after the *first* container separator (`'!!'`, or `'!'` when no `'!!'` is
present), with any `'#'`-fragment removed and percent-escapes decoded, and
returns absent for absent input or an input containing no separator; in
particular `tail_of("/a/book!!OEBPS!xhtml/chap6.xhtml#p1-2") ==
"OEBPS!xhtml/chap6.xhtml"`. -/
theorem tail_first_separator_spec :
    (∀ s : Option String, _tail_after_bang_bang_no_fragment s = tailSpecFirstSep s)
      ∧ _tail_after_bang_bang_no_fragment (some "/a/book!!OEBPS!xhtml/chap6.xhtml#p1-2")
          = some "OEBPS!xhtml/chap6.xhtml"
      ∧ _tail_after_bang_bang_no_fragment none = none := by
  refine ⟨?_, by decide, rfl⟩
  intro s
  cases s with
  | none => rfl
  | some cid => exact tail_eq_spec_aux cid

/-! ## Claim C5 -/

lemma pre_bang_eq_amended_aux (cid : String) :
    _pre_bang (some cid) = preBangAmended (some cid) := by
  by_cases h0 : cid = ""
  · subst h0; rfl
  · simp only [_pre_bang, preBangAmended, if_neg h0]
    by_cases h1 : strContains cid "!!" = true
    · have hsome : (splitFirst "!!".data cid.data).isSome = true := h1
      cases hs : splitFirst "!!".data cid.data with
      | none => rw [hs] at hsome; simp at hsome
      | some pr =>
        obtain ⟨pre, post⟩ := pr
        simp [h1, pySplit1, hs]
    · have hnone : splitFirst "!!".data cid.data = none := by
        cases hs : splitFirst "!!".data cid.data with
        | none => rfl
        | some pr => exact absurd (by rw [strContains, containsSub, hs]; rfl) h1
      simp [h1, hnone]

/-- C5, counterexample: the claim says an id with no container separator
has an absent pre-bang form and the record is omitted from the pre-bang
index; but `_pre_bang("abc") == "abc"`, and a record with that `ContentID`
is stored in the pre-bang index under `"abc"`. -/
theorem pre_bang_no_separator_not_absent :
    _pre_bang (some "abc") = some "abc"
      ∧ preBangClaim (some "abc") = none
      ∧ alistLookup (buildContentIndices [{ ContentID := "abc" }]).content_by_pre_bang "abc"
          = some [{ ContentID := "abc" }] := by
  refine ⟨by decide, by decide, by decide⟩

/-- C5, amended: the pre-bang form is the portion before the first `'!!'`
when one occurs; otherwise it is the fragment base when the id has a
fragment, and the whole `ContentID` otherwise — it is absent only for
absent or empty input, so a record whose id lacks a separator is still
indexed (under a non-empty substitute key). -/
theorem pre_bang_spec :
    (∀ s : Option String, _pre_bang s = preBangAmended s)
      ∧ (∀ cid : String, _pre_bang (some cid) = none ↔ cid = "") := by
  constructor
  · intro s
    cases s with
    | none => rfl
    | some cid => exact pre_bang_eq_amended_aux cid
  · intro cid
    constructor
    · intro h
      by_contra h0
      rw [pre_bang_eq_amended_aux] at h
      simp only [preBangAmended, if_neg h0] at h
      cases hs : splitFirst "!!".data cid.data with
      | some pr => rw [hs] at h; exact absurd h (by simp)
      | none =>
        rw [hs] at h
        cases hf : _fragment_base (some cid) with
        | none => rw [hf] at h; exact absurd h (by simp)
        | some fb =>
          rw [hf] at h
          by_cases hfb : fb = ""
          · simp [hfb] at h
          · simp [hfb] at h
    · intro h
      subst h
      rfl

/-! ## Claim C6 -/

/-- C6, counterexample: the claim takes the numeric-closeness bonus from
numeric tokens of the *tails*; the code extracts numbers from the *base
filenames*.  For `cur = cand = "7/a"` the basenames (`"a"`) contain no
number, so the code scores `100 + 80 + 0 + 10 = 190`, while the claim's
formula adds a `50`-point closeness bonus for the `7` in the tails,
giving `240`. -/
theorem score_numbers_from_basenames :
    _score_tail_similarity (some "7/a") (some "7/a") = 190
      ∧ scoreClaim (some "7/a") (some "7/a") = 240
      ∧ _score_tail_similarity (some "7/a") (some "7/a")
          ≠ scoreClaim (some "7/a") (some "7/a") := by
  refine ⟨by decide, by decide, by decide⟩

/-- C6, amended: the score is the sum of 100 for identical tail strings,
80 when both *base filenames* are non-empty and equal, the capped
closeness bonus when both base filenames contain a numeric token (first
numbers compared), and the capped shared-leading-segment bonus; it is 0
when the candidate tail is absent or empty. -/
theorem score_tail_similarity_spec :
    ∀ cur cand : Option String,
      _score_tail_similarity cur cand = scoreAmended cur cand := by
  intro cur cand
  cases cand with
  | none => rfl
  | some ct => rfl

/-! ## Claim C9 -/

/-- C9, counterexample: the claim says decoding failures during
URL-unescaping yield an absent result, but `unquote` never fails — an
invalid percent-escape such as `"%zz"` is left undecoded and the result is
present. -/
theorem normalize_invalid_escape_not_absent :
    _normalize_id (some "%zz") = some "%zz"
      ∧ _normalize_id (some "%zz") ≠ none := by
  refine ⟨by decide, by decide⟩

/-- C9, amended: every identifier decomposer and the fallback deriver is
total over optional strings with absent mapping to absent; URL-unescaping
never fails (a present input always normalizes to a present output —
invalid escapes are left in place rather than yielding absent); only the
fallback deriver converts internal parsing errors into an absent result. -/
theorem decomposers_total :
    _tail_after_bang_bang_no_fragment none = none
      ∧ _fragment_base none = none
      ∧ _pre_bang none = none
      ∧ _p_anchor none = none
      ∧ _normalize_id none = none
      ∧ _fallback_title_from_content_id none = none
      ∧ (∀ s : String, ∃ t : String, _normalize_id (some s) = some t) :=
  ⟨rfl, rfl, rfl, rfl, rfl, rfl, fun s => ⟨pyUnquote s, rfl⟩⟩

/-! ## Claim C7 -/

lemma ite_true_or (b x : Bool) : (if b = true then true else x) = (b || x) := by
  cases b <;> simp

lemma is_generic_eq_shape (v : String) :
    _is_generic_chapter_title (some v) = genericShape v := by
  by_cases h0 : v = ""
  · subst h0; rfl
  · simp only [_is_generic_chapter_title, genericShape, if_neg h0]
    simp only [ite_true_or, Bool.or_false, Bool.or_assoc]

/-- C7: `is_generic` returns true on `"index_split_004.html"`, `"ch3"` and
`"9780143127741 EPUB 8"`, false on `"Chapter 12: The Storm"`, and in
general returns true exactly for absent/empty input or an input matching
one of the listed generic shapes (`genericShape` is their disjunction,
matching case-insensitively via the lowered form). -/
theorem is_generic_shapes :
    _is_generic_chapter_title (some "index_split_004.html") = true
      ∧ _is_generic_chapter_title (some "ch3") = true
      ∧ _is_generic_chapter_title (some "9780143127741 EPUB 8") = true
      ∧ _is_generic_chapter_title (some "Chapter 12: The Storm") = false
      ∧ _is_generic_chapter_title none = true
      ∧ _is_generic_chapter_title (some "") = true
      ∧ (∀ v : String, _is_generic_chapter_title (some v) = genericShape v) := by
  refine ⟨by decide, by decide, by decide, by decide, rfl, rfl, is_generic_eq_shape⟩

/-! ## Claim C8 -/

lemma firstSomeList_append (a b : List (Option String)) :
    firstSomeList (a ++ b) =
      match firstSomeList a with
      | some t => some t
      | none => firstSomeList b := by
  induction a with
  | nil => rfl
  | cons x rest ih =>
    cases x with
    | some t => rfl
    | none => simpa [firstSomeList] using ih

lemma firstSomeList_single (x : Option String) : firstSomeList [x] = x := by
  cases x <;> rfl

lemma nestedMatch4 (A B C D : Option String) :
    (match A with
      | some t => some t
      | none =>
        match B with
        | some t => some t
        | none =>
          match C with
          | some t => some t
          | none => D)
    = (match
        (match
          (match A with
            | some t => some t
            | none => B) with
          | some t => some t
          | none => C) with
        | some t => some t
        | none => D) := by
  cases A <;> cases B <;> cases C <;> rfl

lemma title_from_context_eq_cascade (ctx : String) :
    _title_from_context (some ctx) = contextCascade ctx := by
  by_cases h0 : ctx = ""
  · subst h0; rfl
  · by_cases h1 : pyStrip ctx = ""
    · simp only [_title_from_context, contextCascade, if_neg h0, h1]
      rfl
    · simp only [_title_from_context, contextCascade, if_neg h0, if_neg h1]
      rw [firstSomeList_append, firstSomeList_append, firstSomeList_append,
        firstSomeList_single]
      exact nestedMatch4 _ _ _ _

/-- C8: the context extractor equals the staged cascade — only the first
400 characters, split into non-empty trimmed lines, of which only the
first 3 are examined by the structured patterns (Chapter/Part, numbered
heading, fixed vocabulary, in that order, first match winning), followed
by the Chapter/Part regex over the entire stripped context as a last
resort, absent when nothing matches; and the claim's two examples hold. -/
theorem title_from_context_cascade :
    (∀ ctx : String, _title_from_context (some ctx) = contextCascade ctx)
      ∧ _title_from_context none = none
      ∧ _title_from_context (some "Chapter 4: The Awakening\n...")
          = some "Chapter 4: The Awakening"
      ∧ _title_from_context (some "Just some prose.") = none := by
  refine ⟨title_from_context_eq_cascade, rfl, by decide, by decide⟩

/-! ## Selection machinery for the resolver proof -/

lemma tripleGt_iff (x y : Int × Int × String) :
    tripleGt x y = true ↔
      y.1 < x.1 ∨ (y.1 = x.1 ∧ (y.2.1 < x.2.1 ∨ (y.2.1 = x.2.1 ∧ y.2.2 < x.2.2))) := by
  obtain ⟨a1, a2, a3⟩ := x
  obtain ⟨b1, b2, b3⟩ := y
  simp only [tripleGt]
  by_cases h1 : a1 = b1
  · subst h1
    simp only [ne_eq, not_true_eq_false, if_false, lt_irrefl, false_or, true_and]
    by_cases h2 : a2 = b2
    · subst h2
      simp [lt_irrefl]
    · simp [h2, Ne.symm h2]
  · simp only [ne_eq, h1, not_false_iff, if_true, decide_eq_true_eq]
    constructor
    · exact Or.inl
    · rintro (h | ⟨he, _⟩)
      · exact h
      · exact absurd he.symm h1

lemma tripleGt_trans {a b c : Int × Int × String}
    (h1 : tripleGt a b = true) (h2 : tripleGt b c = true) : tripleGt a c = true := by
  rw [tripleGt_iff] at *
  rcases h1 with hb | ⟨hb, h1'⟩
  · rcases h2 with hc | ⟨hc, _⟩
    · exact Or.inl (lt_trans hc hb)
    · exact Or.inl (hc ▸ hb)
  · rcases h2 with hc | ⟨hc, h2'⟩
    · exact Or.inl (hb ▸ hc)
    · refine Or.inr ⟨hc.trans hb, ?_⟩
      rcases h1' with hb2 | ⟨hb2, h1''⟩
      · rcases h2' with hc2 | ⟨hc2, _⟩
        · exact Or.inl (lt_trans hc2 hb2)
        · exact Or.inl (hc2 ▸ hb2)
      · rcases h2' with hc2 | ⟨hc2, h2''⟩
        · exact Or.inl (hb2 ▸ hc2)
        · exact Or.inr ⟨hc2.trans hb2, lt_trans h2'' h1''⟩

lemma tripleGt_total {x y : Int × Int × String}
    (hxy : tripleGt x y = false) (hyx : tripleGt y x = false) : x = y := by
  have hxy' : ¬(tripleGt x y = true) := by simp [hxy]
  have hyx' : ¬(tripleGt y x = true) := by simp [hyx]
  rw [tripleGt_iff] at hxy' hyx'
  push_neg at hxy' hyx'
  obtain ⟨a1, a2, a3⟩ := x
  obtain ⟨b1, b2, b3⟩ := y
  simp only at hxy' hyx'
  have e1 : a1 = b1 := le_antisymm hxy'.1 hyx'.1
  have h2x := hxy'.2 e1.symm
  have h2y := hyx'.2 e1
  have e2 : a2 = b2 := le_antisymm h2x.1 h2y.1
  have e3 : a3 = b3 := le_antisymm (h2x.2 e2.symm) (h2y.2 e2)
  simp [Prod.ext_iff, e1, e2, e3]

lemma tripleGt_not_trans {a b c : Int × Int × String}
    (h1 : tripleGt a b = false) (h2 : tripleGt b c = false) : tripleGt a c = false := by
  cases hac : tripleGt a c with
  | false => rfl
  | true =>
    exfalso
    cases hba : tripleGt b a with
    | true =>
      have := tripleGt_trans hba hac
      rw [h2] at this
      exact absurd this (by simp)
    | false =>
      have hab : a = b := tripleGt_total h1 hba
      rw [hab, h2] at hac
      exact absurd hac (by simp)

lemma selBestGen_mem {α : Type} (gt : α → α → Bool) (l : List α) {m : α}
    (h : selBestGen gt l = some m) : m ∈ l := by
  induction l with
  | nil => simp [selBestGen] at h
  | cons x rest ih =>
    simp only [selBestGen] at h
    cases hr : selBestGen gt rest with
    | none =>
      simp only [hr] at h
      injection h with h'
      subst h'
      exact List.mem_cons_self x rest
    | some m' =>
      simp only [hr] at h
      by_cases hg : gt m' x = true
      · rw [if_pos hg] at h
        injection h with h'
        subst h'
        exact List.mem_cons_of_mem x (ih hr)
      · rw [if_neg hg] at h
        injection h with h'
        subst h'
        exact List.mem_cons_self x rest

lemma foldSelGen {α : Type} (gt : α → α → Bool)
    (htr : ∀ a b c, gt a b = true → gt b c = true → gt a c = true)
    (hntr : ∀ a b c, gt a b = false → gt b c = false → gt a c = false)
    (l : List α) :
    ∀ acc : α,
      l.foldl (fun b x => if gt x b then x else b) acc
        = match selBestGen gt l with
          | none => acc
          | some m => if gt m acc then m else acc := by
  induction l with
  | nil => intro acc; rfl
  | cons x rest ih =>
    intro acc
    rw [List.foldl_cons, ih]
    simp only [selBestGen]
    cases hr : selBestGen gt rest with
    | none => rfl
    | some m =>
      by_cases hxa : gt x acc = true
      · by_cases hmx : gt m x = true
        · have hma : gt m acc = true := htr m x acc hmx hxa
          simp [hxa, hmx, hma]
        · simp [hxa, hmx]
      · by_cases hmx : gt m x = true
        · simp [hxa, hmx]
        · have hma : gt m acc = false :=
            hntr m x acc (by simpa using hmx) (by simpa using hxa)
          simp [hxa, hmx, hma]

lemma foldl_filterMap {α β γ : Type} (f : α → Option β) (g : γ → β → γ)
    (l : List α) (init : γ) :
    l.foldl (fun st a =>
      match f a with
      | none => st
      | some b => g st b) init
      = (l.filterMap f).foldl g init := by
  induction l generalizing init with
  | nil => rfl
  | cons a rest ih =>
    rw [List.foldl_cons, List.filterMap_cons]
    cases hf : f a with
    | none => simp only [ih]
    | some b => simp only [List.foldl_cons, ih]

lemma foldSelPair {K : Type} (gt : K → K → Bool)
    (htr : ∀ a b c, gt a b = true → gt b c = true → gt a c = true)
    (hntr : ∀ a b c, gt a b = false → gt b c = false → gt a c = false)
    (l : List (String × K)) :
    ∀ (o : Option String) (k : K),
      l.foldl (fun st c => if gt c.2 st.2 then (some c.1, c.2) else st) (o, k)
        = match selBestGen (fun a b : String × K => gt a.2 b.2) l with
          | none => (o, k)
          | some m => if gt m.2 k then (some m.1, m.2) else (o, k) := by
  induction l with
  | nil => intro o k; rfl
  | cons x rest ih =>
    intro o k
    rw [List.foldl_cons]
    simp only [selBestGen]
    by_cases hxa : gt x.2 k = true
    · rw [if_pos hxa, ih]
      cases hr : selBestGen (fun a b : String × K => gt a.2 b.2) rest with
      | none => simp [hxa]
      | some m =>
        by_cases hmx : gt m.2 x.2 = true
        · have hma : gt m.2 k = true := htr m.2 x.2 k hmx hxa
          simp [hxa, hmx, hma]
        · simp [hxa, hmx]
    · rw [if_neg hxa, ih]
      cases hr : selBestGen (fun a b : String × K => gt a.2 b.2) rest with
      | none => simp [hxa]
      | some m =>
        by_cases hmx : gt m.2 x.2 = true
        · simp [hxa, hmx]
        · have hma : gt m.2 k = false :=
            hntr m.2 x.2 k (by simpa using hmx) (by simpa using hxa)
          simp [hxa, hmx, hma]

lemma foldl_optFoldStep {α β γ : Type} (f : α → Option β) (g : γ → β → γ)
    (l : List α) (init : γ) :
    l.foldl (optFoldStep f g) init = (l.filterMap f).foldl g init := by
  induction l generalizing init with
  | nil => rfl
  | cons a rest ih =>
    rw [List.foldl_cons, List.filterMap_cons]
    cases hf : f a with
    | none => simp only [optFoldStep, hf, ih]
    | some b => simp only [optFoldStep, hf, List.foldl_cons, ih]

lemma score_nonneg (cur cand : Option String) : 0 ≤ _score_tail_similarity cur cand := by
  cases cand with
  | none => simp [_score_tail_similarity]
  | some ct =>
    by_cases hct : ct = ""
    · simp [_score_tail_similarity, hct]
    · simp only [_score_tail_similarity, if_neg hct]
      refine add_nonneg (add_nonneg (add_nonneg ?_ ?_) ?_) ?_
      · split <;> norm_num
      · split <;> norm_num
      · split
        · exact le_max_left 0 _
        · exact le_refl 0
      · split
        · refine le_min (mul_nonneg (Int.natCast_nonneg _) (by norm_num)) (by norm_num)
        · exact le_refl 0

lemma candTriple_props {cur : Option String} {sup : Bool} {cr : ContentRecord}
    {m : Int × Int × String} (h : candTriple cur sup cr = some m) :
    0 ≤ m.1 ∧ m.2.2 ≠ "" ∧ _clean_title cr.Title sup = some m.2.2 := by
  unfold candTriple at h
  cases hc : _clean_title cr.Title sup with
  | none =>
    simp only [hc] at h
    exact absurd h (by simp)
  | some t =>
    simp only [hc] at h
    by_cases htoc : pyLower t = "table of contents"
    · rw [if_pos htoc] at h
      exact absurd h (by simp)
    · rw [if_neg htoc] at h
      injection h with h'
      subst h'
      exact ⟨score_nonneg _ _, (clean_spec hc).1, rfl⟩

lemma bestScoredTitle_step (cur_tail : Option String) (sup : Bool) :
    (fun (best : Int × Int × String) (cr : ContentRecord) =>
      match _clean_title cr.Title sup with
      | none => best
      | some t =>
        if pyLower t = "table of contents" then best
        else
          let score := _score_tail_similarity cur_tail
            (_tail_after_bang_bang_no_fragment (some cr.ContentID))
          let tup : Int × Int × String := (score, (t.length : Int), t)
          if tripleGt tup best then tup else best)
    = optFoldStep (candTriple cur_tail sup)
        (fun best tup => if tripleGt tup best then tup else best) := by
  funext best cr
  simp only [optFoldStep, candTriple]
  cases _clean_title cr.Title sup with
  | none => rfl
  | some t =>
    by_cases h : pyLower t = "table of contents"
    · simp [h]
    · simp [h]

lemma bestScoredTitle_eq (rows : List ContentRecord) (cur : Option String) (sup : Bool) :
    bestScoredTitle rows cur sup
      = match selBestGen tripleGt (rows.filterMap (candTriple cur sup)) with
        | none => ((-1 : Int), (-1 : Int), "")
        | some m => m := by
  unfold bestScoredTitle
  rw [bestScoredTitle_step, foldl_optFoldStep,
    foldSelGen tripleGt (fun _ _ _ => tripleGt_trans) (fun _ _ _ => tripleGt_not_trans)]
  cases hsel : selBestGen tripleGt (rows.filterMap (candTriple cur sup)) with
  | none => rfl
  | some m =>
    obtain ⟨cr, _, hct⟩ := List.mem_filterMap.mp (selBestGen_mem _ _ hsel)
    have h0 := (candTriple_props hct).1
    have hgt : tripleGt m ((-1 : Int), (-1 : Int), "") = true := by
      rw [tripleGt_iff]
      exact Or.inl (by omega)
    simp [hgt]

lemma bestScored_result (rows : List ContentRecord) (cur : Option String) (sup : Bool) :
    (if (bestScoredTitle rows cur sup).2.2 ≠ "" then some (bestScoredTitle rows cur sup).2.2
     else none)
      = bestScoredSpec rows cur sup := by
  rw [bestScoredTitle_eq, bestScoredSpec]
  cases hsel : selBestGen tripleGt (rows.filterMap (candTriple cur sup)) with
  | none => simp
  | some m =>
    obtain ⟨cr, _, hct⟩ := List.mem_filterMap.mp (selBestGen_mem _ _ hsel)
    have hne := (candTriple_props hct).2.1
    simp [hne]

/-! ## Stage-equivalence lemmas for the resolver -/

lemma intGt_trans : ∀ a b c : Int, decide (b < a) = true → decide (c < b) = true →
    decide (c < a) = true := by
  intro a b c h1 h2
  simp only [decide_eq_true_eq] at *
  omega

lemma intGt_not_trans : ∀ a b c : Int, decide (b < a) = false → decide (c < b) = false →
    decide (c < a) = false := by
  intro a b c h1 h2
  simp only [decide_eq_false_iff_not] at *
  omega

lemma string_length_pos {t : String} (h : t ≠ "") : (1 : Int) ≤ (t.length : Int) := by
  have : t.length ≠ 0 := by
    intro h0
    exact h (by
      have : t.data.length = 0 := h0
      have : t.data = [] := List.length_eq_zero.mp this
      cases t
      simp_all)
  omega

lemma candLen_props {sup : Bool} {cr : ContentRecord} {m : String × Int}
    (h : candLen sup cr = some m) :
    1 ≤ m.2 ∧ _clean_title cr.Title sup = some m.1 := by
  unfold candLen at h
  cases hc : _clean_title cr.Title sup with
  | none =>
    simp only [hc] at h
    exact absurd h (by simp)
  | some t =>
    simp only [hc] at h
    by_cases htoc : pyLower t = "table of contents"
    · rw [if_pos htoc] at h
      exact absurd h (by simp)
    · rw [if_neg htoc] at h
      injection h with h'
      subst h'
      exact ⟨string_length_pos (clean_spec hc).1, rfl⟩

lemma bestLongTitle_step (sup : Bool) :
    (fun (best : Option String × Int) (cr : ContentRecord) =>
      match _clean_title cr.Title sup with
      | none => best
      | some t =>
        if pyLower t = "table of contents" then best
        else if decide (best.2 < (t.length : Int)) then (some t, (t.length : Int))
        else best)
    = optFoldStep (candLen sup)
        (fun st c => if decide (st.2 < c.2) then (some c.1, c.2) else st) := by
  funext best cr
  simp only [optFoldStep, candLen]
  cases _clean_title cr.Title sup with
  | none => rfl
  | some t =>
    by_cases h : pyLower t = "table of contents"
    · simp [h]
    · simp [h]

lemma bestLongTitle_eq (rows : List ContentRecord) (sup : Bool) :
    bestLongTitle rows sup
      = match selBestGen (fun a b : String × Int => decide (b.2 < a.2))
            (rows.filterMap (candLen sup)) with
        | none => (none, (-1 : Int))
        | some m => (some m.1, m.2) := by
  unfold bestLongTitle
  rw [bestLongTitle_step, foldl_optFoldStep,
    foldSelPair (fun a b : Int => decide (b < a)) intGt_trans intGt_not_trans]
  cases hsel : selBestGen (fun a b : String × Int => decide (b.2 < a.2))
      (rows.filterMap (candLen sup)) with
  | none => rfl
  | some m =>
    obtain ⟨cr, _, hct⟩ := List.mem_filterMap.mp (selBestGen_mem _ _ hsel)
    have h1 := (candLen_props hct).1
    have hgt : decide ((-1 : Int) < m.2) = true := by
      simp only [decide_eq_true_eq]
      omega
    simp [hgt]

lemma candDepth_props {sup : Bool} {cr : ContentRecord}
    {m : String × (Int × Int × String)} (h : candDepth sup cr = some m) :
    m.2.1 = 0 ∧ _clean_title cr.Title sup = some m.1 := by
  unfold candDepth at h
  cases hc : _clean_title cr.Title sup with
  | none =>
    simp only [hc] at h
    exact absurd h (by simp)
  | some t =>
    simp only [hc] at h
    by_cases htoc : pyLower t = "table of contents"
    · rw [if_pos htoc] at h
      exact absurd h (by simp)
    · rw [if_neg htoc] at h
      injection h with h'
      subst h'
      exact ⟨rfl, rfl⟩

lemma bestDepthTitle_step (sup : Bool) :
    (fun (best : Option String × (Int × Int × String)) (cr : ContentRecord) =>
      match _clean_title cr.Title sup with
      | none => best
      | some t =>
        if pyLower t = "table of contents" then best
        else
          let tup : Int × Int × String := (recDepth cr, (t.length : Int), t)
          if tripleGt tup best.2 then (some t, tup) else best)
    = optFoldStep (candDepth sup)
        (fun st c => if tripleGt c.2 st.2 then (some c.1, c.2) else st) := by
  funext best cr
  simp only [optFoldStep, candDepth]
  cases _clean_title cr.Title sup with
  | none => rfl
  | some t =>
    by_cases h : pyLower t = "table of contents"
    · simp [h]
    · simp [h]

lemma bestDepthTitle_eq (rows : List ContentRecord) (sup : Bool) :
    bestDepthTitle rows sup
      = match selBestGen (fun a b : String × (Int × Int × String) => tripleGt a.2 b.2)
            (rows.filterMap (candDepth sup)) with
        | none => (none, ((-1 : Int), (-1 : Int), ""))
        | some m => (some m.1, m.2) := by
  unfold bestDepthTitle
  rw [bestDepthTitle_step, foldl_optFoldStep,
    foldSelPair tripleGt (fun _ _ _ => tripleGt_trans) (fun _ _ _ => tripleGt_not_trans)]
  cases hsel : selBestGen (fun a b : String × (Int × Int × String) => tripleGt a.2 b.2)
      (rows.filterMap (candDepth sup)) with
  | none => rfl
  | some m =>
    obtain ⟨cr, _, hct⟩ := List.mem_filterMap.mp (selBestGen_mem _ _ hsel)
    have h1 := (candDepth_props hct).1
    have hgt : tripleGt m.2 ((-1 : Int), (-1 : Int), "") = true := by
      rw [tripleGt_iff]
      exact Or.inl (by omega)
    simp [hgt]

lemma bestDepthTitle_fst (rows : List ContentRecord) (sup : Bool) :
    (bestDepthTitle rows sup).1 = bestDepthSpec rows sup := by
  rw [bestDepthTitle_eq, bestDepthSpec]
  cases hsel : selBestGen (fun a b : String × (Int × Int × String) => tripleGt a.2 b.2)
      (rows.filterMap (candDepth sup)) with
  | none => rfl
  | some m => rfl

lemma siblingTailLoop_eq (tail : String)
    (content_by_tail : List (String × List ContentRecord)) (sup : Bool)
    (ns : List Nat) :
    siblingTailLoop tail content_by_tail sup ns
      = firstSomeList (ns.map (fun n =>
          bestDepthSpec
            ((alistLookup content_by_tail (tail ++ "-" ++ toString n)).getD []) sup)) := by
  induction ns with
  | nil => rfl
  | cons n more ih =>
    simp only [siblingTailLoop, List.map_cons]
    rw [bestDepthTitle_fst]
    cases hb : bestDepthSpec
        ((alistLookup content_by_tail (tail ++ "-" ++ toString n)).getD []) sup with
    | some t => rfl
    | none => simpa [firstSomeList] using ih

lemma pyTruthy_some {t : String} (h : t ≠ "") : pyTruthy (some t) = true := by
  simp [pyTruthy, h]

lemma firstSomeList_cons_none (rest : List (Option String)) :
    firstSomeList (none :: rest) = firstSomeList rest := rfl

lemma firstSomeList_cons_some (t : String) (rest : List (Option String)) :
    firstSomeList (some t :: rest) = some t := rfl

lemma stage2Block_truthy {r sup prev} (h : pyTruthy prev = true) :
    stage2Block r sup prev = prev := by
  unfold stage2Block
  rw [if_pos h]

lemma stage3Block_truthy {cont_id frag_base byFB sup prev} (h : pyTruthy prev = true) :
    stage3Block cont_id frag_base byFB sup prev = prev := by
  unfold stage3Block
  rw [if_pos h]

lemma stage4Block_truthy {cont_id byTail sup prev} (h : pyTruthy prev = true) :
    stage4Block cont_id byTail sup prev = prev := by
  unfold stage4Block
  rw [if_pos h]

lemma stage5Block_truthy {cont_id byPA sup prev} (h : pyTruthy prev = true) :
    stage5Block cont_id byPA sup prev = prev := by
  unfold stage5Block
  rw [if_pos h]

lemma stage6Block_truthy {cont_id byTail sup prev} (h : pyTruthy prev = true) :
    stage6Block cont_id byTail sup prev = prev := by
  unfold stage6Block
  rw [if_pos h]

lemma stage7Block_truthy {cont_id pre_bang byPB sup prev} (h : pyTruthy prev = true) :
    stage7Block cont_id pre_bang byPB sup prev = prev := by
  unfold stage7Block
  rw [if_pos h]

lemma stage8Block_truthy {cont_id cont_id_no_frag sup prev} (h : pyTruthy prev = true) :
    stage8Block cont_id cont_id_no_frag sup prev = prev := by
  unfold stage8Block
  rw [if_pos h]

lemma stage2Block_none (r : HighlightRow) (sup : Bool) :
    stage2Block r sup none = stage2Resolver r sup := rfl

lemma stage3Block_none (cont_id frag_base : Option String)
    (byFB : List (String × List ContentRecord)) (sup : Bool) :
    stage3Block cont_id frag_base byFB sup none
      = stage3Resolver cont_id frag_base byFB sup := by
  unfold stage3Block stage3Resolver
  cases frag_base with
  | none => rfl
  | some fb =>
    by_cases hfb : fb = ""
    · simp [hfb, pyTruthy]
    · have hfb' : fb ≠ "" := hfb
      simp only [pyTruthy, if_false, Bool.false_eq_true, if_pos hfb']
      exact bestScored_result _ _ _

lemma bestLong_result (rows : List ContentRecord) (sup : Bool) :
    (match (bestLongTitle rows sup).1 with
     | some t => some t
     | none => (none : Option String))
      = bestLongSpec rows sup := by
  rw [bestLongTitle_eq, bestLongSpec]
  cases hsel : selBestGen (fun a b : String × Int => decide (b.2 < a.2))
      (rows.filterMap (candLen sup)) with
  | none => rfl
  | some m => rfl

lemma stage4Block_none (cont_id : Option String)
    (byTail : List (String × List ContentRecord)) (sup : Bool) :
    stage4Block cont_id byTail sup none = stage4Resolver cont_id byTail sup := by
  unfold stage4Block stage4Resolver
  cases _tail_after_bang_bang_no_fragment cont_id with
  | none => rfl
  | some tail =>
    by_cases ht : tail = ""
    · simp [ht, pyTruthy]
    · have ht' : tail ≠ "" := ht
      simp only [pyTruthy, if_false, Bool.false_eq_true, if_pos ht']
      exact bestLong_result _ _

lemma stage5Block_none (cont_id : Option String)
    (byPA : List (String × List ContentRecord)) (sup : Bool) :
    stage5Block cont_id byPA sup none = stage5Resolver cont_id byPA sup := by
  unfold stage5Block stage5Resolver
  cases _p_anchor cont_id with
  | none => rfl
  | some pa =>
    by_cases hpa : pa = ""
    · simp [hpa, pyTruthy]
    · have hpa' : pa ≠ "" := hpa
      simp only [pyTruthy, if_false, Bool.false_eq_true, if_pos hpa']
      exact bestScored_result _ _ _

lemma stage6Block_none (cont_id : Option String)
    (byTail : List (String × List ContentRecord)) (sup : Bool) :
    stage6Block cont_id byTail sup none = stage6Resolver cont_id byTail sup := by
  unfold stage6Block stage6Resolver
  cases _tail_after_bang_bang_no_fragment cont_id with
  | none => rfl
  | some tail =>
    by_cases ht : tail = ""
    · simp [ht, pyTruthy]
    · have ht' : tail ≠ "" := ht
      simp only [pyTruthy, if_false, Bool.false_eq_true, if_pos ht']
      rw [siblingTailLoop_eq]
      cases firstSomeList ([1, 2, 3, 4, 5].map (fun n =>
          bestDepthSpec ((alistLookup byTail (tail ++ "-" ++ toString n)).getD []) sup)) with
      | none => rfl
      | some t => rfl

lemma stage7Block_none (cont_id pre_bang : Option String)
    (byPB : List (String × List ContentRecord)) (sup : Bool) :
    stage7Block cont_id pre_bang byPB sup none
      = stage7Resolver cont_id pre_bang byPB sup := by
  unfold stage7Block stage7Resolver
  cases pre_bang with
  | none => rfl
  | some pb =>
    by_cases hpb : pb = ""
    · simp [hpb, pyTruthy]
    · have hpb' : pb ≠ "" := hpb
      simp only [pyTruthy, if_false, Bool.false_eq_true, if_pos hpb']
      exact bestScored_result _ _ _

lemma stage8Block_none (cont_id cont_id_no_frag : Option String) (sup : Bool) :
    stage8Block cont_id cont_id_no_frag sup none
      = stage8Resolver cont_id cont_id_no_frag sup := rfl

lemma bestScoredSpec_clean {rows cur sup t} (h : bestScoredSpec rows cur sup = some t) :
    ∃ v, _clean_title v sup = some t := by
  unfold bestScoredSpec at h
  cases hsel : selBestGen tripleGt (rows.filterMap (candTriple cur sup)) with
  | none => rw [hsel] at h; exact absurd h (by simp)
  | some m =>
    rw [hsel] at h
    injection h with h'
    obtain ⟨cr, _, hct⟩ := List.mem_filterMap.mp (selBestGen_mem _ _ hsel)
    exact ⟨cr.Title, h' ▸ (candTriple_props hct).2.2⟩

lemma bestLongSpec_clean {rows sup t} (h : bestLongSpec rows sup = some t) :
    ∃ v, _clean_title v sup = some t := by
  unfold bestLongSpec at h
  cases hsel : selBestGen (fun a b : String × Int => decide (b.2 < a.2))
      (rows.filterMap (candLen sup)) with
  | none => rw [hsel] at h; exact absurd h (by simp)
  | some m =>
    rw [hsel] at h
    injection h with h'
    obtain ⟨cr, _, hct⟩ := List.mem_filterMap.mp (selBestGen_mem _ _ hsel)
    exact ⟨cr.Title, h' ▸ (candLen_props hct).2⟩

lemma bestDepthSpec_clean {rows sup t} (h : bestDepthSpec rows sup = some t) :
    ∃ v, _clean_title v sup = some t := by
  unfold bestDepthSpec at h
  cases hsel : selBestGen (fun a b : String × (Int × Int × String) => tripleGt a.2 b.2)
      (rows.filterMap (candDepth sup)) with
  | none => rw [hsel] at h; exact absurd h (by simp)
  | some m =>
    rw [hsel] at h
    injection h with h'
    obtain ⟨cr, _, hct⟩ := List.mem_filterMap.mp (selBestGen_mem _ _ hsel)
    exact ⟨cr.Title, h' ▸ (candDepth_props hct).2⟩

lemma firstSomeList_eq_some {l : List (Option String)} {t : String}
    (h : firstSomeList l = some t) : some t ∈ l := by
  induction l with
  | nil => simp [firstSomeList] at h
  | cons x rest ih =>
    cases x with
    | some u =>
      rw [firstSomeList_cons_some] at h
      rw [h]
      exact List.mem_cons_self _ _
    | none =>
      rw [firstSomeList_cons_none] at h
      exact List.mem_cons_of_mem _ (ih h)

/-- Every present output of any resolver stage is the output of a
`_clean_title` call. -/
lemma stage_clean (r : HighlightRow) (ch_row : Option ContentRecord)
    (cont_id cont_id_no_frag frag_base pre_bang : Option String)
    (byFB byPB byPA byTail : List (String × List ContentRecord))
    (sup : Bool) {t : String} :
    (stage1Resolver ch_row sup = some t
      ∨ stage2Resolver r sup = some t
      ∨ stage3Resolver cont_id frag_base byFB sup = some t
      ∨ stage4Resolver cont_id byTail sup = some t
      ∨ stage5Resolver cont_id byPA sup = some t
      ∨ stage6Resolver cont_id byTail sup = some t
      ∨ stage7Resolver cont_id pre_bang byPB sup = some t
      ∨ stage8Resolver cont_id cont_id_no_frag sup = some t) →
    ∃ v, _clean_title v sup = some t := by
  rintro (h | h | h | h | h | h | h | h)
  · exact ⟨_, h⟩
  · unfold stage2Resolver at h
    cases hc : _title_from_context r.ContextString with
    | none => rw [hc] at h; exact absurd h (by simp)
    | some ct =>
      rw [hc] at h
      exact ⟨_, h⟩
  · cases frag_base with
    | none =>
      simp only [stage3Resolver] at h
      exact absurd h (by simp)
    | some fb =>
      simp only [stage3Resolver] at h
      by_cases hfb : fb = ""
      · simp [hfb] at h
      · simp only [ne_eq, hfb, not_false_eq_true, if_true] at h
        exact bestScoredSpec_clean h
  · cases htl : _tail_after_bang_bang_no_fragment cont_id with
    | none =>
      simp only [stage4Resolver, htl] at h
      exact absurd h (by simp)
    | some tail =>
      simp only [stage4Resolver, htl] at h
      by_cases ht : tail = ""
      · simp [ht] at h
      · simp only [ne_eq, ht, not_false_eq_true, if_true] at h
        exact bestLongSpec_clean h
  · cases hpa0 : _p_anchor cont_id with
    | none =>
      simp only [stage5Resolver, hpa0] at h
      exact absurd h (by simp)
    | some pa =>
      simp only [stage5Resolver, hpa0] at h
      by_cases hpa : pa = ""
      · simp [hpa] at h
      · simp only [ne_eq, hpa, not_false_eq_true, if_true] at h
        exact bestScoredSpec_clean h
  · cases htl : _tail_after_bang_bang_no_fragment cont_id with
    | none =>
      simp only [stage6Resolver, htl] at h
      exact absurd h (by simp)
    | some tail =>
      simp only [stage6Resolver, htl] at h
      by_cases ht : tail = ""
      · simp [ht] at h
      · simp only [ne_eq, ht, not_false_eq_true, if_true] at h
        have hmem := firstSomeList_eq_some h
        obtain ⟨n, _, hn⟩ := List.mem_map.mp hmem
        exact bestDepthSpec_clean hn
  · cases pre_bang with
    | none =>
      simp only [stage7Resolver] at h
      exact absurd h (by simp)
    | some pb =>
      simp only [stage7Resolver] at h
      by_cases hpb : pb = ""
      · simp [hpb] at h
      · simp only [ne_eq, hpb, not_false_eq_true, if_true] at h
        exact bestScoredSpec_clean h
  · exact ⟨_, h⟩

lemma stage_ne_empty {sup : Bool} {t : String}
    (h : ∃ v, _clean_title v sup = some t) : t ≠ "" := by
  obtain ⟨v, hv⟩ := h
  exact (clean_spec hv).1

/-- `determine_chapter_title` equals the strict-order first-success
cascade of the eight claim-side stages. -/
lemma determine_eq_cascade (r : HighlightRow) (ch_row : Option ContentRecord)
    (cont_id cont_id_no_frag frag_base pre_bang : Option String)
    (byFB byPB byPA byTail : List (String × List ContentRecord)) (sup : Bool) :
    determine_chapter_title r ch_row cont_id cont_id_no_frag frag_base pre_bang
        byFB byPB byPA byTail sup
      = resolverCascade r ch_row cont_id cont_id_no_frag frag_base pre_bang
          byFB byPB byPA byTail sup := by
  unfold determine_chapter_title resolverCascade
  rw [show stage1Block ch_row sup = stage1Resolver ch_row sup from rfl]
  cases h1 : stage1Resolver ch_row sup with
  | some t =>
    have ht := pyTruthy_some (stage_ne_empty
      (stage_clean r ch_row cont_id cont_id_no_frag frag_base pre_bang
        byFB byPB byPA byTail sup (Or.inl h1)))
    rw [stage2Block_truthy ht, stage3Block_truthy ht, stage4Block_truthy ht,
      stage5Block_truthy ht, stage6Block_truthy ht, stage7Block_truthy ht,
      stage8Block_truthy ht, firstSomeList_cons_some]
  | none =>
    rw [stage2Block_none, firstSomeList_cons_none]
    cases h2 : stage2Resolver r sup with
    | some t =>
      have ht := pyTruthy_some (stage_ne_empty
        (stage_clean r ch_row cont_id cont_id_no_frag frag_base pre_bang
          byFB byPB byPA byTail sup (Or.inr (Or.inl h2))))
      rw [stage3Block_truthy ht, stage4Block_truthy ht, stage5Block_truthy ht,
        stage6Block_truthy ht, stage7Block_truthy ht, stage8Block_truthy ht,
        firstSomeList_cons_some]
    | none =>
      rw [stage3Block_none, firstSomeList_cons_none]
      cases h3 : stage3Resolver cont_id frag_base byFB sup with
      | some t =>
        have ht := pyTruthy_some (stage_ne_empty
          (stage_clean r ch_row cont_id cont_id_no_frag frag_base pre_bang
            byFB byPB byPA byTail sup (Or.inr (Or.inr (Or.inl h3)))))
        rw [stage4Block_truthy ht, stage5Block_truthy ht, stage6Block_truthy ht,
          stage7Block_truthy ht, stage8Block_truthy ht, firstSomeList_cons_some]
      | none =>
        rw [stage4Block_none, firstSomeList_cons_none]
        cases h4 : stage4Resolver cont_id byTail sup with
        | some t =>
          have ht := pyTruthy_some (stage_ne_empty
            (stage_clean r ch_row cont_id cont_id_no_frag frag_base pre_bang
              byFB byPB byPA byTail sup (Or.inr (Or.inr (Or.inr (Or.inl h4))))))
          rw [stage5Block_truthy ht, stage6Block_truthy ht, stage7Block_truthy ht,
            stage8Block_truthy ht, firstSomeList_cons_some]
        | none =>
          rw [stage5Block_none, firstSomeList_cons_none]
          cases h5 : stage5Resolver cont_id byPA sup with
          | some t =>
            have ht := pyTruthy_some (stage_ne_empty
              (stage_clean r ch_row cont_id cont_id_no_frag frag_base pre_bang
                byFB byPB byPA byTail sup
                (Or.inr (Or.inr (Or.inr (Or.inr (Or.inl h5)))))))
            rw [stage6Block_truthy ht, stage7Block_truthy ht, stage8Block_truthy ht,
              firstSomeList_cons_some]
          | none =>
            rw [stage6Block_none, firstSomeList_cons_none]
            cases h6 : stage6Resolver cont_id byTail sup with
            | some t =>
              have ht := pyTruthy_some (stage_ne_empty
                (stage_clean r ch_row cont_id cont_id_no_frag frag_base pre_bang
                  byFB byPB byPA byTail sup
                  (Or.inr (Or.inr (Or.inr (Or.inr (Or.inr (Or.inl h6))))))))
              rw [stage7Block_truthy ht, stage8Block_truthy ht, firstSomeList_cons_some]
            | none =>
              rw [stage7Block_none, firstSomeList_cons_none]
              cases h7 : stage7Resolver cont_id pre_bang byPB sup with
              | some t =>
                have ht := pyTruthy_some (stage_ne_empty
                  (stage_clean r ch_row cont_id cont_id_no_frag frag_base pre_bang
                    byFB byPB byPA byTail sup
                    (Or.inr (Or.inr (Or.inr (Or.inr (Or.inr (Or.inr (Or.inl h7)))))))))
                rw [stage8Block_truthy ht, firstSomeList_cons_some]
              | none =>
                rw [stage8Block_none, firstSomeList_cons_none]
                rw [firstSomeList_single]

/-! ## Claim C1 -/

/-- C1: for every highlight, `determine_chapter_title` tries its stages in
strict order — (1) the matched record's own title cleaned, (2) a cleaned
title from the context string, (3) fragment-base candidates by highest
score, (4) exact-tail candidates by longest title, (5) p-anchor candidates
by highest score, (6) sibling tails `-1`…`-5` preferring greater depth
then longer title and stopping at the first productive offset, (7)
pre-bang candidates by highest score, (8) a cleaned identifier-derived
fallback — returning the first non-absent successfully-cleaned result; in
stages 3–7 a title equal case-insensitively to "table of contents" is
never selected, and score ties in stages 3/5/7 are broken by longer title
(the stage definitions carry these selection rules; records loaded by this
program have no `Depth` column, so the stage-6 depth is uniformly the
parsed default `0`). -/
theorem determine_chapter_title_cascade (r : HighlightRow)
    (ch_row : Option ContentRecord)
    (cont_id cont_id_no_frag frag_base pre_bang : Option String)
    (byFB byPB byPA byTail : List (String × List ContentRecord)) (sup : Bool) :
    determine_chapter_title r ch_row cont_id cont_id_no_frag frag_base pre_bang
        byFB byPB byPA byTail sup
      = firstSomeList
          [stage1Resolver ch_row sup,
           stage2Resolver r sup,
           stage3Resolver cont_id frag_base byFB sup,
           stage4Resolver cont_id byTail sup,
           stage5Resolver cont_id byPA sup,
           stage6Resolver cont_id byTail sup,
           stage7Resolver cont_id pre_bang byPB sup,
           stage8Resolver cont_id cont_id_no_frag sup] :=
  determine_eq_cascade r ch_row cont_id cont_id_no_frag frag_base pre_bang
    byFB byPB byPA byTail sup

/-! ## Claim C10 -/

/-- C10: whenever `determine_chapter_title` returns a title, it is a
non-empty string with no leading or trailing whitespace, and when
`suppress_filename_like` is on it is never generic — every stage's
candidate passes through `_clean_title`. -/
theorem determine_chapter_title_clean (r : HighlightRow)
    (ch_row : Option ContentRecord)
    (cont_id cont_id_no_frag frag_base pre_bang : Option String)
    (byFB byPB byPA byTail : List (String × List ContentRecord)) (sup : Bool)
    (t : String)
    (h : determine_chapter_title r ch_row cont_id cont_id_no_frag frag_base pre_bang
        byFB byPB byPA byTail sup = some t) :
    t ≠ "" ∧ pyStrip t = t
      ∧ (sup = true → _is_generic_chapter_title (some t) = false) := by
  rw [determine_eq_cascade] at h
  unfold resolverCascade at h
  have hmem := firstSomeList_eq_some h
  simp only [List.mem_cons, List.not_mem_nil, or_false] at hmem
  have hcl : ∃ v, _clean_title v sup = some t := by
    apply stage_clean r ch_row cont_id cont_id_no_frag frag_base pre_bang
      byFB byPB byPA byTail sup
    rcases hmem with h1 | h2 | h3 | h4 | h5 | h6 | h7 | h8
    · exact Or.inl h1.symm
    · exact Or.inr (Or.inl h2.symm)
    · exact Or.inr (Or.inr (Or.inl h3.symm))
    · exact Or.inr (Or.inr (Or.inr (Or.inl h4.symm)))
    · exact Or.inr (Or.inr (Or.inr (Or.inr (Or.inl h5.symm))))
    · exact Or.inr (Or.inr (Or.inr (Or.inr (Or.inr (Or.inl h6.symm)))))
    · exact Or.inr (Or.inr (Or.inr (Or.inr (Or.inr (Or.inr (Or.inl h7.symm))))))
    · exact Or.inr (Or.inr (Or.inr (Or.inr (Or.inr (Or.inr (Or.inr h8.symm))))))
  obtain ⟨v, hv⟩ := hcl
  exact clean_spec hv

/-- C10, witness: at a concrete input the resolver returns `"Hello"`, and
the guarantees hold for it. -/
theorem determine_chapter_title_clean_witness :
    ("Hello" : String) ≠ "" ∧ pyStrip "Hello" = "Hello"
      ∧ (true = true → _is_generic_chapter_title (some "Hello") = false) :=
  determine_chapter_title_clean ⟨none⟩
    (some { ContentID := "z", Title := some "Hello" })
    none none none none [] [] [] [] true "Hello" (by decide)

/-! ## Claim C2 -/

lemma find?_map_keypreserving {α : Type} (f : (String × α) → (String × α))
    (hf : ∀ p, (f p).1 = p.1) (m : List (String × α)) (k : String) :
    (m.map f).find? (fun p => p.1 = k) = (m.find? (fun p => p.1 = k)).map f := by
  induction m with
  | nil => rfl
  | cons p rest ih =>
    simp only [List.map_cons, List.find?_cons]
    by_cases hp : p.1 = k
    · simp [hf, hp]
    · simp only [hf, hp]
      simpa [hf, hp] using ih

lemma alistLookup_appendAt_same {α : Type} (m : List (String × List α)) (k : String)
    (v : α) :
    alistLookup (alistAppendAt m k v) k = some ((alistLookup m k).getD [] ++ [v]) := by
  unfold alistAppendAt alistLookup
  by_cases hany : m.any (fun p => p.1 = k) = true
  · rw [if_pos hany]
    rw [find?_map_keypreserving _ (fun p => by split <;> rfl)]
    have hsome : (m.find? (fun p => p.1 = k)).isSome = true := by
      rw [List.find?_isSome]
      exact List.any_eq_true.mp hany
    cases hf : m.find? (fun p => p.1 = k) with
    | none => rw [hf] at hsome; simp at hsome
    | some p0 =>
      have hp0 : p0.1 = k := by simpa using List.find?_some hf
      simp [hf, hp0]
  · rw [if_neg hany]
    have hnone : m.find? (fun p => p.1 = k) = none := by
      rw [List.find?_eq_none]
      intro x hx hpx
      exact hany (List.any_eq_true.mpr ⟨x, hx, hpx⟩)
    rw [List.find?_append, hnone]
    simp [hnone]

lemma alistLookup_appendAt_other {α : Type} (m : List (String × List α))
    {k k' : String} (v : α) (h : k' ≠ k) :
    alistLookup (alistAppendAt m k v) k' = alistLookup m k' := by
  unfold alistAppendAt alistLookup
  by_cases hany : m.any (fun p => p.1 = k) = true
  · rw [if_pos hany]
    rw [find?_map_keypreserving _ (fun p => by split <;> rfl)]
    cases hf : m.find? (fun p => p.1 = k') with
    | none => simp
    | some p0 =>
      have hp0 : p0.1 = k' := by simpa using List.find?_some hf
      have : ¬(p0.1 = k) := by rw [hp0]; exact h
      simp [this]
  · rw [if_neg hany]
    rw [List.find?_append]
    cases hf : m.find? (fun p => p.1 = k') with
    | none => simp [Ne.symm h]
    | some p0 => simp

lemma multiFold_lookup (key : ContentRecord → Option String)
    (records : List ContentRecord) (k : String) :
    ∀ m0 : List (String × List ContentRecord),
      alistLookup (records.foldl (stepMulti key) m0) k
        = match alistLookup m0 k with
          | some l => some (l ++ records.filter (fun r => key r = some k))
          | none =>
            if records.filter (fun r => key r = some k) = [] then none
            else some (records.filter (fun r => key r = some k)) := by
  induction records with
  | nil =>
    intro m0
    cases h : alistLookup m0 k <;> simp [h]
  | cons r rest ih =>
    intro m0
    rw [List.foldl_cons]
    cases hkey : key r with
    | none =>
      have hstep : stepMulti key m0 r = m0 := by
        unfold stepMulti
        rw [hkey]
      rw [hstep, ih]
      have hfil : (r :: rest).filter (fun x => key x = some k)
          = rest.filter (fun x => key x = some k) := by
        simp [List.filter_cons, hkey]
      rw [hfil]
    | some k1 =>
      have hstep : stepMulti key m0 r = alistAppendAt m0 k1 r := by
        unfold stepMulti
        rw [hkey]
      rw [hstep, ih]
      by_cases hkk : k1 = k
      · subst hkk
        rw [alistLookup_appendAt_same]
        have hfil : (r :: rest).filter (fun x => key x = some k1)
            = r :: rest.filter (fun x => key x = some k1) := by
          simp [List.filter_cons, hkey]
        rw [hfil]
        cases hl : alistLookup m0 k1 with
        | none =>
          simp only [hl, Option.getD_none, List.nil_append]
          split
          · next heq => simp at heq
          · rfl
        | some l =>
          simp [hl]
      · rw [alistLookup_appendAt_other _ _ (fun he => hkk he.symm)]
        have hfil : (r :: rest).filter (fun x => key x = some k)
            = rest.filter (fun x => key x = some k) := by
          simp only [List.filter_cons, hkey]
          have : ¬(some k1 = some k) := by
            intro he
            exact hkk (Option.some.injEq k1 k ▸ he)
          simp [this]
        rw [hfil]

lemma alistLookup_assign_same {α : Type} (m : List (String × α)) (k : String) (v : α) :
    alistLookup (alistAssign m k v) k = some v := by
  unfold alistAssign alistLookup
  by_cases hany : m.any (fun p => p.1 = k) = true
  · rw [if_pos hany]
    rw [find?_map_keypreserving _ (fun p => by split <;> rfl)]
    have hsome : (m.find? (fun p => p.1 = k)).isSome = true := by
      rw [List.find?_isSome]
      exact List.any_eq_true.mp hany
    cases hf : m.find? (fun p => p.1 = k) with
    | none => rw [hf] at hsome; simp at hsome
    | some p0 =>
      have hp0 : p0.1 = k := by simpa using List.find?_some hf
      simp [hf, hp0]
  · rw [if_neg hany]
    have hnone : m.find? (fun p => p.1 = k) = none := by
      rw [List.find?_eq_none]
      intro x hx hpx
      exact hany (List.any_eq_true.mpr ⟨x, hx, hpx⟩)
    rw [List.find?_append, hnone]
    simp

lemma alistLookup_assign_other {α : Type} (m : List (String × α))
    {k k' : String} (v : α) (h : k' ≠ k) :
    alistLookup (alistAssign m k v) k' = alistLookup m k' := by
  unfold alistAssign alistLookup
  by_cases hany : m.any (fun p => p.1 = k) = true
  · rw [if_pos hany]
    rw [find?_map_keypreserving _ (fun p => by split <;> rfl)]
    cases hf : m.find? (fun p => p.1 = k') with
    | none => simp
    | some p0 =>
      have hp0 : p0.1 = k' := by simpa using List.find?_some hf
      have : ¬(p0.1 = k) := by rw [hp0]; exact h
      simp [this]
  · rw [if_neg hany]
    rw [List.find?_append]
    cases hf : m.find? (fun p => p.1 = k') with
    | none => simp [Ne.symm h]
    | some p0 => simp

lemma alistLookup_setdefault_same {α : Type} (m : List (String × α)) (k : String)
    (v : α) :
    alistLookup (alistSetdefault m k v) k = some ((alistLookup m k).getD v) := by
  unfold alistSetdefault alistLookup
  by_cases hany : m.any (fun p => p.1 = k) = true
  · rw [if_pos hany]
    have hsome : (m.find? (fun p => p.1 = k)).isSome = true := by
      rw [List.find?_isSome]
      exact List.any_eq_true.mp hany
    cases hf : m.find? (fun p => p.1 = k) with
    | none => rw [hf] at hsome; simp at hsome
    | some p0 => simp [hf]
  · rw [if_neg hany]
    have hnone : m.find? (fun p => p.1 = k) = none := by
      rw [List.find?_eq_none]
      intro x hx hpx
      exact hany (List.any_eq_true.mpr ⟨x, hx, hpx⟩)
    rw [List.find?_append, hnone]
    simp [hnone]

lemma alistLookup_setdefault_other {α : Type} (m : List (String × α))
    {k k' : String} (v : α) (h : k' ≠ k) :
    alistLookup (alistSetdefault m k v) k' = alistLookup m k' := by
  unfold alistSetdefault alistLookup
  by_cases hany : m.any (fun p => p.1 = k) = true
  · rw [if_pos hany]
  · rw [if_neg hany]
    rw [List.find?_append]
    cases hf : m.find? (fun p => p.1 = k') with
    | none => simp [Ne.symm h]
    | some p0 => simp

lemma lastFold_lookup (key : ContentRecord → Option String)
    (records : List ContentRecord) (k : String) :
    ∀ m0 : List (String × ContentRecord),
      alistLookup (records.foldl (stepSingleLast key) m0) k
        = match (records.filter (fun r => key r = some k)).getLast? with
          | some r => some r
          | none => alistLookup m0 k := by
  induction records with
  | nil => intro m0; rfl
  | cons r rest ih =>
    intro m0
    rw [List.foldl_cons]
    cases hkey : key r with
    | none =>
      have hstep : stepSingleLast key m0 r = m0 := by
        unfold stepSingleLast
        rw [hkey]
      have hfil : (r :: rest).filter (fun x => key x = some k)
          = rest.filter (fun x => key x = some k) := by
        simp [List.filter_cons, hkey]
      rw [hstep, ih, hfil]
    | some k1 =>
      have hstep : stepSingleLast key m0 r = alistAssign m0 k1 r := by
        unfold stepSingleLast
        rw [hkey]
      rw [hstep, ih]
      by_cases hkk : k1 = k
      · subst hkk
        have hfil : (r :: rest).filter (fun x => key x = some k1)
            = r :: rest.filter (fun x => key x = some k1) := by
          simp [List.filter_cons, hkey]
        rw [hfil]
        cases hl : (rest.filter (fun x => key x = some k1)).getLast? with
        | some r' => simp [List.getLast?_cons, hl]
        | none =>
          simp only [List.getLast?_cons, hl, Option.getD_none]
          exact alistLookup_assign_same m0 k1 r
      · have hne : ¬(some k1 = some k) := by
          intro he
          exact hkk (Option.some.injEq k1 k ▸ he)
        have hfil : (r :: rest).filter (fun x => key x = some k)
            = rest.filter (fun x => key x = some k) := by
          simp [List.filter_cons, hkey, hne]
        rw [hfil, alistLookup_assign_other _ _ (fun he => hkk he.symm)]

lemma firstFold_lookup (key : ContentRecord → Option String)
    (records : List ContentRecord) (k : String) :
    ∀ m0 : List (String × ContentRecord),
      alistLookup (records.foldl (stepSingleFirst key) m0) k
        = match alistLookup m0 k with
          | some v => some v
          | none => (records.filter (fun r => key r = some k)).head? := by
  induction records with
  | nil =>
    intro m0
    cases h : alistLookup m0 k <;> simp [h]
  | cons r rest ih =>
    intro m0
    rw [List.foldl_cons]
    cases hkey : key r with
    | none =>
      have hstep : stepSingleFirst key m0 r = m0 := by
        unfold stepSingleFirst
        rw [hkey]
      have hfil : (r :: rest).filter (fun x => key x = some k)
          = rest.filter (fun x => key x = some k) := by
        simp [List.filter_cons, hkey]
      rw [hstep, ih, hfil]
    | some k1 =>
      have hstep : stepSingleFirst key m0 r = alistSetdefault m0 k1 r := by
        unfold stepSingleFirst
        rw [hkey]
      rw [hstep, ih]
      by_cases hkk : k1 = k
      · subst hkk
        have hfil : (r :: rest).filter (fun x => key x = some k1)
            = r :: rest.filter (fun x => key x = some k1) := by
          simp [List.filter_cons, hkey]
        rw [hfil, alistLookup_setdefault_same]
        cases hl : alistLookup m0 k1 with
        | some v => simp [hl]
        | none => simp [hl]
      · have hne : ¬(some k1 = some k) := by
          intro he
          exact hkk (Option.some.injEq k1 k ▸ he)
        have hfil : (r :: rest).filter (fun x => key x = some k)
            = rest.filter (fun x => key x = some k) := by
          simp [List.filter_cons, hkey, hne]
        rw [hfil, alistLookup_setdefault_other _ _ (fun he => hkk he.symm)]

lemma buildFold_frag_base (records : List ContentRecord) :
    ∀ ix : ContentIndices,
      (records.foldl indexStep ix).content_by_frag_base
        = records.foldl (stepMulti fragBaseKey) ix.content_by_frag_base := by
  induction records with
  | nil => intro ix; rfl
  | cons r rest ih =>
    intro ix
    rw [List.foldl_cons, List.foldl_cons, ih]
    rfl

lemma buildFold_pre_bang (records : List ContentRecord) :
    ∀ ix : ContentIndices,
      (records.foldl indexStep ix).content_by_pre_bang
        = records.foldl (stepMulti preBangKey) ix.content_by_pre_bang := by
  induction records with
  | nil => intro ix; rfl
  | cons r rest ih =>
    intro ix
    rw [List.foldl_cons, List.foldl_cons, ih]
    rfl

lemma buildFold_tail (records : List ContentRecord) :
    ∀ ix : ContentIndices,
      (records.foldl indexStep ix).content_by_tail
        = records.foldl (stepMulti tailKey) ix.content_by_tail := by
  induction records with
  | nil => intro ix; rfl
  | cons r rest ih =>
    intro ix
    rw [List.foldl_cons, List.foldl_cons, ih]
    rfl

lemma buildFold_p_anchor (records : List ContentRecord) :
    ∀ ix : ContentIndices,
      (records.foldl indexStep ix).content_by_p_anchor
        = records.foldl (stepMulti pAnchorKey) ix.content_by_p_anchor := by
  induction records with
  | nil => intro ix; rfl
  | cons r rest ih =>
    intro ix
    rw [List.foldl_cons, List.foldl_cons, ih]
    rfl

lemma buildFold_book (records : List ContentRecord) :
    ∀ ix : ContentIndices,
      (records.foldl indexStep ix).content_by_book
        = records.foldl (stepMulti bookKey) ix.content_by_book := by
  induction records with
  | nil => intro ix; rfl
  | cons r rest ih =>
    intro ix
    rw [List.foldl_cons, List.foldl_cons, ih]
    rfl

lemma buildFold_id (records : List ContentRecord) :
    ∀ ix : ContentIndices,
      (records.foldl indexStep ix).content_by_id
        = records.foldl (stepSingleLast idKey) ix.content_by_id := by
  induction records with
  | nil => intro ix; rfl
  | cons r rest ih =>
    intro ix
    rw [List.foldl_cons, List.foldl_cons, ih]
    rfl

lemma buildFold_url (records : List ContentRecord) :
    ∀ ix : ContentIndices,
      (records.foldl indexStep ix).content_by_url
        = records.foldl (stepSingleLast urlKey) ix.content_by_url := by
  induction records with
  | nil => intro ix; rfl
  | cons r rest ih =>
    intro ix
    rw [List.foldl_cons, List.foldl_cons, ih]
    rfl

lemma buildFold_id_norm (records : List ContentRecord) :
    ∀ ix : ContentIndices,
      (records.foldl indexStep ix).content_by_id_norm
        = records.foldl (stepSingleFirst idNormKey) ix.content_by_id_norm := by
  induction records with
  | nil => intro ix; rfl
  | cons r rest ih =>
    intro ix
    rw [List.foldl_cons, List.foldl_cons, ih]
    rfl

lemma buildFold_url_norm (records : List ContentRecord) :
    ∀ ix : ContentIndices,
      (records.foldl indexStep ix).content_by_url_norm
        = records.foldl (stepSingleFirst urlNormKey) ix.content_by_url_norm := by
  induction records with
  | nil => intro ix; rfl
  | cons r rest ih =>
    intro ix
    rw [List.foldl_cons, List.foldl_cons, ih]
    rfl

/-- C2, counterexample: the claim says each mapping sends every derived
form to the ordered list of *all* records sharing it, but the raw-id
mapping is single-valued: with two distinct records sharing
`ContentID = "x"`, only the last-loaded record is stored under `"x"`. -/
theorem content_by_id_single_record :
    alistLookup (buildContentIndices
        [{ ContentID := "x", Title := some "A" },
         { ContentID := "x", Title := some "B" }]).content_by_id "x"
      = some { ContentID := "x", Title := some "B" }
      ∧ ({ ContentID := "x", Title := some "A" } : ContentRecord)
          ≠ { ContentID := "x", Title := some "B" } := by
  refine ⟨by decide, by decide⟩

/-- C2, amended: after the builder consumes the record set, the five
list-valued mappings (fragment base, pre-bang, tail, p-anchor, book id)
map each stored form to the list of all records deriving that form, in
load order, and never store a record under an underivable form; the
raw-id and URL mappings are single-valued and keep the last matching
record, while the normalized-id and normalized-URL mappings are
single-valued and keep the first. -/
theorem content_indices_lookup_spec (records : List ContentRecord) (k : String) :
    (alistLookup (buildContentIndices records).content_by_frag_base k
        = if records.filter (fun r => fragBaseKey r = some k) = [] then none
          else some (records.filter (fun r => fragBaseKey r = some k)))
      ∧ (alistLookup (buildContentIndices records).content_by_pre_bang k
        = if records.filter (fun r => preBangKey r = some k) = [] then none
          else some (records.filter (fun r => preBangKey r = some k)))
      ∧ (alistLookup (buildContentIndices records).content_by_tail k
        = if records.filter (fun r => tailKey r = some k) = [] then none
          else some (records.filter (fun r => tailKey r = some k)))
      ∧ (alistLookup (buildContentIndices records).content_by_p_anchor k
        = if records.filter (fun r => pAnchorKey r = some k) = [] then none
          else some (records.filter (fun r => pAnchorKey r = some k)))
      ∧ (alistLookup (buildContentIndices records).content_by_book k
        = if records.filter (fun r => bookKey r = some k) = [] then none
          else some (records.filter (fun r => bookKey r = some k)))
      ∧ (alistLookup (buildContentIndices records).content_by_id k
        = (records.filter (fun r => idKey r = some k)).getLast?)
      ∧ (alistLookup (buildContentIndices records).content_by_url k
        = (records.filter (fun r => urlKey r = some k)).getLast?)
      ∧ (alistLookup (buildContentIndices records).content_by_id_norm k
        = (records.filter (fun r => idNormKey r = some k)).head?)
      ∧ (alistLookup (buildContentIndices records).content_by_url_norm k
        = (records.filter (fun r => urlNormKey r = some k)).head?) := by
  unfold buildContentIndices
  refine ⟨?_, ?_, ?_, ?_, ?_, ?_, ?_, ?_, ?_⟩
  · rw [buildFold_frag_base, multiFold_lookup]
    rfl
  · rw [buildFold_pre_bang, multiFold_lookup]
    rfl
  · rw [buildFold_tail, multiFold_lookup]
    rfl
  · rw [buildFold_p_anchor, multiFold_lookup]
    rfl
  · rw [buildFold_book, multiFold_lookup]
    rfl
  · rw [buildFold_id, lastFold_lookup]
    cases h : (records.filter (fun r => idKey r = some k)).getLast? <;>
      simp [h, alistLookup]
  · rw [buildFold_url, lastFold_lookup]
    cases h : (records.filter (fun r => urlKey r = some k)).getLast? <;>
      simp [h, alistLookup]
  · rw [buildFold_id_norm, firstFold_lookup]
    rfl
  · rw [buildFold_url_norm, firstFold_lookup]
    rfl

end Kobo
